import Mathlib

/-!
Verification development for the double-double ("dd_real") arithmetic kernel
of the Neslib.MultiPrecision repository (src/C).

Modelling conventions.  A machine `double` is embedded as an exact value:
either a rational number, `+INF`/`-INF`, or `NaN` (`Fp` below).  Finite
arithmetic is exact (no rounding), while the IEEE-754 special-value rules
(NaN absorption, infinity arithmetic, all comparisons with NaN false) are
modelled precisely; decimal literals from the C sources are read as exact
decimal rationals.  Properties whose content is the binary64 rounding step
itself (ulp bounds, rounding-error identities) are outside this embedding.

The repository's `src/C` tree contains `inline.h`, `dd_real.cpp`,
`dd_const.cpp`, `c_dd.cpp` and configuration headers, but not `dd_real.h` /
`dd_inline.h` (the expansion type's inline operators).  Definitions taken
from those missing headers are marked `Modelled from the spec:` and follow
the specification's description of the two-limb arithmetic; everything else
is translated directly from the sources.  The build configuration
(qd_config.h) defines neither `QD_FMS` nor `HP_ACCURATE`, so `two_prod`
uses the split-based path and the sloppy add/div policies are the ones
modelled.
-/

namespace MP

/-- Model of an IEEE binary64 value: an exact rational (finite doubles,
with no overflow/rounding modelled), a signed infinity (`inf true` is
`-INF`), or NaN. -/
inductive Fp where
  | fin (q : ℚ)
  | inf (neg : Bool)
  | nan
  deriving DecidableEq

namespace Fp

/-- Embeds `isnan(x)` (QD_ISNAN in qd_config.h). -/
def isNaN : Fp → Bool
  | nan => true
  | _ => false

/-- IEEE negation. -/
def neg : Fp → Fp
  | fin q => fin (-q)
  | inf s => inf (!s)
  | nan => nan

/-- IEEE addition: exact on finite values, NaN-absorbing,
`INF + (-INF) = NaN`. -/
def add : Fp → Fp → Fp
  | nan, _ => nan
  | _, nan => nan
  | inf s, inf t => if s = t then inf s else nan
  | inf s, fin _ => inf s
  | fin _, inf t => inf t
  | fin a, fin b => fin (a + b)

/-- IEEE subtraction, `a - b = a + (-b)`. -/
def sub (a b : Fp) : Fp := add a (neg b)

/-- IEEE multiplication: exact on finite values, NaN-absorbing,
`INF * 0 = NaN`. -/
def mul : Fp → Fp → Fp
  | nan, _ => nan
  | _, nan => nan
  | inf s, inf t => inf (xor s t)
  | inf s, fin q => if q = 0 then nan else inf (xor s (decide (q < 0)))
  | fin q, inf t => if q = 0 then nan else inf (xor t (decide (q < 0)))
  | fin a, fin b => fin (a * b)

/-- IEEE division: exact on finite values, NaN-absorbing, `INF/INF = NaN`,
`x/INF = 0`, `x/0 = ±INF` (x ≠ 0), `0/0 = NaN` (signed zeros are not
modelled). -/
def div : Fp → Fp → Fp
  | nan, _ => nan
  | _, nan => nan
  | inf _, inf _ => nan
  | inf s, fin q => inf (xor s (decide (q < 0)))
  | fin _, inf _ => fin 0
  | fin a, fin b =>
      if b = 0 then (if a = 0 then nan else inf (decide (a < 0)))
      else fin (a / b)

/-- IEEE `<`: false whenever an operand is NaN. -/
def lt : Fp → Fp → Bool
  | nan, _ => false
  | _, nan => false
  | inf s, inf t => s && !t
  | inf s, fin _ => s
  | fin _, inf t => !t
  | fin a, fin b => decide (a < b)

/-- IEEE `==`: false whenever an operand is NaN. -/
def feq : Fp → Fp → Bool
  | fin a, fin b => decide (a = b)
  | inf s, inf t => s == t
  | _, _ => false

/-- IEEE `<=`: false whenever an operand is NaN. -/
def le (a b : Fp) : Bool := lt a b || feq a b

/-- Embeds `fabs` (qd_fabs in qd_config.h). -/
def abs : Fp → Fp
  | fin q => fin |q|
  | inf _ => inf false
  | nan => nan

/-- Embeds `floor` (the extern `qd_floor` of inline.h); exact on every double,
hence exact in the model. -/
def floor : Fp → Fp
  | fin q => fin (⌊q⌋ : ℤ)
  | inf s => inf s
  | nan => nan

/-- Embeds `ceil` (the extern `qd_ceil` of inline.h). -/
def ceil : Fp → Fp
  | fin q => fin (⌈q⌉ : ℤ)
  | inf s => inf s
  | nan => nan

/-- Embeds `ldexp` (the extern `qd_ldexp` of inline.h): exact scaling by a power
of two. -/
def ldexp (a : Fp) (n : ℤ) : Fp :=
  match a with
  | fin q => fin (q * (2 : ℚ) ^ n)
  | inf s => inf s
  | nan => nan

/-- Embeds `static_cast<int>` on a double: truncation toward zero.  On NaN or
infinity the C cast is undefined behaviour; the model returns 0 there (no
theorem below depends on that choice: every NaN-input path yields NaN for
any value of this cast). -/
def toInt : Fp → ℤ
  | fin q => if 0 ≤ q then ⌊q⌋ else ⌈q⌉
  | _ => 0

end Fp

/-- Modelled from the spec: the extern native routine `qd_sqrt` declared in
inline.h is not part of this repository's sources.  Only its IEEE
special-value behaviour (NaN → NaN, negative → NaN, `+INF` → `+INF`) is used
by any theorem below; the finite positive case is only ever used as a Newton
seed by the kernel, and its value here is an unconstrained placeholder. -/
def qd_sqrt : Fp → Fp
  | .fin q => if q < 0 then .nan else .fin q
  | .inf s => if s then .nan else .inf false
  | .nan => .nan

/-- Modelled from the spec: the extern native routine `qd_log` declared in
inline.h.  Only its special-value behaviour (NaN → NaN, nonpositive → NaN or
`-INF`) matters to the theorems below; the finite positive case is a seed
whose value is an unconstrained placeholder. -/
def qd_log : Fp → Fp
  | .fin q => if q < 0 then .nan else if q = 0 then .inf true else .fin 0
  | .inf s => if s then .nan else .inf false
  | .nan => .nan

/-- Modelled from the spec: the extern native routine `qd_exp` declared in
inline.h; NaN → NaN, finite case an unconstrained placeholder seed. -/
def qd_exp : Fp → Fp
  | .fin _ => .fin 1
  | .inf s => if s then .fin 0 else .inf false
  | .nan => .nan

/-- Modelled from the spec: the extern native routine `qd_atan2` declared in
inline.h; NaN in → NaN out, finite case an unconstrained placeholder seed. -/
def qd_atan2 (y x : Fp) : Fp :=
  if y.isNaN || x.isNaN then .nan else .fin 0

namespace qd

/-- Embeds `_QD_SPLITTER = 134217729.0 = 2^27 + 1` (inline.h). -/
def _QD_SPLITTER : Fp := .fin 134217729

/-- Embeds `_QD_SPLIT_THRESH = 6.69692879491417e+299` (inline.h). -/
def _QD_SPLIT_THRESH : Fp := .fin (mkRat 669692879491417000000000000000000000000000000000000000000000000000000000000000000000000000000000000000000000000000000000000000000000000000000000000000000000000000000000000000000000000000000000000000000000000000000000000000000000000000000000000000000000000000000000000000000000000000000000000000000000 1)

/-- Embeds `qd::quick_two_sum` (inline.h): computes `fl(a+b)` and `err(a+b)`,
assuming `|a| >= |b|`; returns `(s, err)`. -/
def quick_two_sum (a b : Fp) : Fp × Fp :=
  let s := Fp.add a b
  (s, Fp.sub b (Fp.sub s a))

/-- Embeds `qd::quick_two_diff` (inline.h). -/
def quick_two_diff (a b : Fp) : Fp × Fp :=
  let s := Fp.sub a b
  (s, Fp.sub (Fp.sub a s) b)

/-- Embeds `qd::two_sum` (inline.h): computes `fl(a+b)` and `err(a+b)`. -/
def two_sum (a b : Fp) : Fp × Fp :=
  let s := Fp.add a b
  let bb := Fp.sub s a
  (s, Fp.add (Fp.sub a (Fp.sub s bb)) (Fp.sub b bb))

/-- Embeds `qd::two_diff` (inline.h): computes `fl(a-b)` and `err(a-b)`. -/
def two_diff (a b : Fp) : Fp × Fp :=
  let s := Fp.sub a b
  let bb := Fp.sub s a
  (s, Fp.sub (Fp.sub a (Fp.sub s bb)) (Fp.add b bb))

/-- Embeds `qd::split` (inline.h): high and low words of `a`, with pre/post
scaling by `2^±28` beyond the overflow threshold.  Returns `(hi, lo)`. -/
def split (a : Fp) : Fp × Fp :=
  if Fp.lt _QD_SPLIT_THRESH a || Fp.lt a (Fp.neg _QD_SPLIT_THRESH) then
    let a' := Fp.mul a (.fin (mkRat 37252902984619140625 (10 ^ 28)))
    let temp := Fp.mul _QD_SPLITTER a'
    let hi := Fp.sub temp (Fp.sub temp a')
    let lo := Fp.sub a' hi
    (Fp.mul hi (.fin 268435456), Fp.mul lo (.fin 268435456))
  else
    let temp := Fp.mul _QD_SPLITTER a
    let hi := Fp.sub temp (Fp.sub temp a)
    (hi, Fp.sub a hi)

/-- Embeds `qd::two_prod` (inline.h), split-based path (`QD_FMS` is not defined by
qd_config.h in this build): computes `fl(a*b)` and `err(a*b)`. -/
def two_prod (a b : Fp) : Fp × Fp :=
  let p := Fp.mul a b
  let a_hi := (split a).1
  let a_lo := (split a).2
  let b_hi := (split b).1
  let b_lo := (split b).2
  (p, Fp.add (Fp.add (Fp.add (Fp.sub (Fp.mul a_hi b_hi) p) (Fp.mul a_hi b_lo))
        (Fp.mul a_lo b_hi)) (Fp.mul a_lo b_lo))

/-- Embeds `qd::two_sqr` (inline.h), split-based path. -/
def two_sqr (a : Fp) : Fp × Fp :=
  let q := Fp.mul a a
  let hi := (split a).1
  let lo := (split a).2
  (q, Fp.add (Fp.add (Fp.sub (Fp.mul hi hi) q) (Fp.mul (Fp.mul (.fin 2) hi) lo))
        (Fp.mul lo lo))

/-- Embeds `qd::nint` (inline.h): `if (d == floor(d)) return d; return
floor(d + 0.5);`. -/
def nint (d : Fp) : Fp :=
  if Fp.feq d (Fp.floor d) then d
  else Fp.floor (Fp.add d (.fin (mkRat 1 2)))

/-- Embeds `qd::aint` (inline.h): `(d >= 0.0) ? floor(d) : ceil(d)`. -/
def aint (d : Fp) : Fp :=
  if Fp.le (.fin 0) d then Fp.floor d else Fp.ceil d

/-- Embeds `qd::sqr` (inline.h). -/
def sqr (t : Fp) : Fp := Fp.mul t t

/-- Embeds `qd::to_double` on a double (inline.h). -/
def to_double (a : Fp) : Fp := a

end qd

/-- The double-double value type (`struct dd_real { double x[2]; }` of the
missing dd_real.h header): two limbs, most significant first, whose exact
sum is the represented value.  The limb array `x[0], x[1]` is modelled as
the fields `x0, x1`. -/
structure dd_real where
  x0 : Fp
  x1 : Fp
  deriving DecidableEq

namespace dd_real

/-- Conversion from a native double (`dd_real(double)`): second limb 0. -/
def ofD (d : Fp) : dd_real := ⟨d, .fin 0⟩

/-! Constants, populated by `c_dd_init` (src/C/c_dd.cpp) from pre-rounded
literal pairs; the decimal literals are read as exact rationals. -/

def _2pi : dd_real := ⟨.fin (mkRat 6283185307179586232 (10 ^ 18)), .fin (mkRat 2449293598294706414 (10 ^ 34))⟩

def _pi : dd_real := ⟨.fin (mkRat 3141592653589793116 (10 ^ 18)), .fin (mkRat 1224646799147353207 (10 ^ 34))⟩

def _pi2 : dd_real := ⟨.fin (mkRat 1570796326794896558 (10 ^ 18)), .fin (mkRat 6123233995736766036 (10 ^ 35))⟩

def _pi4 : dd_real := ⟨.fin (mkRat 7853981633974482790 (10 ^ 19)), .fin (mkRat 3061616997868383018 (10 ^ 35))⟩

def _3pi4 : dd_real := ⟨.fin (mkRat 2356194490192344837 (10 ^ 18)), .fin (mkRat 91848509936051484375 (10 ^ 36))⟩

def _e : dd_real := ⟨.fin (mkRat 2718281828459045091 (10 ^ 18)), .fin (mkRat 1445646891729250158 (10 ^ 34))⟩

def _log2 : dd_real := ⟨.fin (mkRat 6931471805599452862 (10 ^ 19)), .fin (mkRat 2319046813846299558 (10 ^ 35))⟩

def _log10 : dd_real := ⟨.fin (mkRat 2302585092994045901 (10 ^ 18)), .fin (mkRat (-2170756223382249351) (10 ^ 34))⟩

/-- The canonical NaN expansion (`dd_real::_nan`): both limbs NaN. -/
def _nan : dd_real := ⟨.nan, .nan⟩

/-- The canonical +infinity expansion (`dd_real::_inf`). -/
def _inf : dd_real := ⟨.inf false, .inf false⟩

def _pi16 : dd_real := ⟨.fin (mkRat 1963495408493620697 (10 ^ 19)), .fin (mkRat 7654042494670957545 (10 ^ 36))⟩

/-- Embeds `dd_real::_eps = 4.93038065763132e-32` (src/C/dd_const.cpp), read as an
exact decimal rational. -/
def _eps : Fp := .fin (mkRat 493038065763132 (10 ^ 46))

/-- Modelled from the spec: `dd_real::is_zero` (missing dd_real.h) — the
zero predicate is decided from the leading limb alone. -/
def is_zero (a : dd_real) : Bool := Fp.feq a.x0 (.fin 0)

/-- Modelled from the spec: `dd_real::is_one` (missing dd_real.h) — exact
equality to the two-limb representation of 1. -/
def is_one (a : dd_real) : Bool := Fp.feq a.x0 (.fin 1) && Fp.feq a.x1 (.fin 0)

/-- Modelled from the spec: `dd_real::is_positive` (missing dd_real.h) —
sign decided from the leading limb. -/
def is_positive (a : dd_real) : Bool := Fp.lt (.fin 0) a.x0

/-- Modelled from the spec: `dd_real::is_negative` (missing dd_real.h). -/
def is_negative (a : dd_real) : Bool := Fp.lt a.x0 (.fin 0)

/-- Modelled from the spec: `dd_real::is_nan` (missing dd_real.h) — true
when either limb is NaN. -/
def is_nanb (a : dd_real) : Bool := a.x0.isNaN || a.x1.isNaN

/-- Embeds `dd_real::add(double, double)` (missing dd_real.h; modelled from the
spec): a single `two_sum`. -/
def add (a b : Fp) : dd_real := ⟨(qd.two_sum a b).1, (qd.two_sum a b).2⟩

/-- Embeds `dd_real::sub(double, double)` (missing dd_real.h; modelled from the
spec): a single `two_diff`. -/
def sub (a b : Fp) : dd_real := ⟨(qd.two_diff a b).1, (qd.two_diff a b).2⟩

/-- Embeds `dd_real::mul(double, double)` (missing dd_real.h; modelled from the
spec): a single `two_prod`. -/
def mul (a b : Fp) : dd_real := ⟨(qd.two_prod a b).1, (qd.two_prod a b).2⟩

/-- Embeds `dd_real::sqr(double)` (missing dd_real.h; modelled from the spec): a
single `two_sqr`. -/
def sqr_d (a : Fp) : dd_real := ⟨(qd.two_sqr a).1, (qd.two_sqr a).2⟩

end dd_real

/-- Modelled from the spec: `operator+(dd_real, dd_real)` (missing
dd_inline.h), sloppy-add policy (`HP_ACCURATE`/`QD_IEEE_ADD` not defined):
`two_sum` on the leading limbs, trailing limbs folded into the error,
one `quick_two_sum` renormalization. -/
def ddAdd (a b : dd_real) : dd_real :=
  let s := (qd.two_sum a.x0 b.x0).1
  let e := (qd.two_sum a.x0 b.x0).2
  let e := Fp.add e (Fp.add a.x1 b.x1)
  ⟨(qd.quick_two_sum s e).1, (qd.quick_two_sum s e).2⟩

/-- Modelled from the spec: `operator+(dd_real, double)` (missing
dd_inline.h). -/
def ddAddD (a : dd_real) (b : Fp) : dd_real :=
  let s1 := (qd.two_sum a.x0 b).1
  let s2 := (qd.two_sum a.x0 b).2
  let s2 := Fp.add s2 a.x1
  ⟨(qd.quick_two_sum s1 s2).1, (qd.quick_two_sum s1 s2).2⟩

/-- Modelled from the spec: `operator+(double, dd_real)` (missing
dd_inline.h): delegates to `dd + double`. -/
def dAddDD (a : Fp) (b : dd_real) : dd_real := ddAddD b a

/-- Modelled from the spec: `operator-(dd_real, dd_real)` (missing
dd_inline.h), sloppy policy. -/
def ddSub (a b : dd_real) : dd_real :=
  let s := (qd.two_diff a.x0 b.x0).1
  let e := (qd.two_diff a.x0 b.x0).2
  let e := Fp.add e a.x1
  let e := Fp.sub e b.x1
  ⟨(qd.quick_two_sum s e).1, (qd.quick_two_sum s e).2⟩

/-- Modelled from the spec: `operator-(dd_real, double)` (missing
dd_inline.h). -/
def ddSubD (a : dd_real) (b : Fp) : dd_real :=
  let s1 := (qd.two_diff a.x0 b).1
  let s2 := (qd.two_diff a.x0 b).2
  let s2 := Fp.add s2 a.x1
  ⟨(qd.quick_two_sum s1 s2).1, (qd.quick_two_sum s1 s2).2⟩

/-- Modelled from the spec: `operator-(double, dd_real)` (missing
dd_inline.h). -/
def dSubDD (a : Fp) (b : dd_real) : dd_real :=
  let s1 := (qd.two_diff a b.x0).1
  let s2 := (qd.two_diff a b.x0).2
  let s2 := Fp.sub s2 b.x1
  ⟨(qd.quick_two_sum s1 s2).1, (qd.quick_two_sum s1 s2).2⟩

/-- Modelled from the spec: unary `operator-(dd_real)` (missing
dd_inline.h): negates both limbs. -/
def ddNeg (a : dd_real) : dd_real := ⟨Fp.neg a.x0, Fp.neg a.x1⟩

/-- Modelled from the spec: `operator*(dd_real, dd_real)` (missing
dd_inline.h): `two_prod` of the leading limbs plus the two cross terms
(the low-by-low product is dropped), one renormalization. -/
def ddMul (a b : dd_real) : dd_real :=
  let p1 := (qd.two_prod a.x0 b.x0).1
  let p2 := (qd.two_prod a.x0 b.x0).2
  let p2 := Fp.add p2 (Fp.add (Fp.mul a.x0 b.x1) (Fp.mul a.x1 b.x0))
  ⟨(qd.quick_two_sum p1 p2).1, (qd.quick_two_sum p1 p2).2⟩

/-- Modelled from the spec: `operator*(dd_real, double)` (missing
dd_inline.h). -/
def ddMulD (a : dd_real) (b : Fp) : dd_real :=
  let p1 := (qd.two_prod a.x0 b).1
  let p2 := (qd.two_prod a.x0 b).2
  let p2 := Fp.add p2 (Fp.mul a.x1 b)
  ⟨(qd.quick_two_sum p1 p2).1, (qd.quick_two_sum p1 p2).2⟩

/-- Modelled from the spec: `operator*(double, dd_real)` (missing
dd_inline.h). -/
def dMulDD (a : Fp) (b : dd_real) : dd_real := ddMulD b a

/-- Modelled from the spec: `sqr(dd_real)` (missing dd_inline.h). -/
def sqr (a : dd_real) : dd_real :=
  let p1 := (qd.two_sqr a.x0).1
  let p2 := (qd.two_sqr a.x0).2
  let p2 := Fp.add p2 (Fp.mul (Fp.mul (.fin 2) a.x0) a.x1)
  let p2 := Fp.add p2 (Fp.mul a.x1 a.x1)
  ⟨(qd.quick_two_sum p1 p2).1, (qd.quick_two_sum p1 p2).2⟩

/-- Modelled from the spec: `operator/(dd_real, dd_real)` (missing
dd_inline.h), sloppy-div policy (`QD_SLOPPY_DIV` defined by qd_config.h):
approximate leading-limb quotient, multiply back, correct with the exact
residual. -/
def ddDiv (a b : dd_real) : dd_real :=
  let q1 := Fp.div a.x0 b.x0
  let r := ddMulD b q1
  let s1 := (qd.two_diff a.x0 r.x0).1
  let s2 := (qd.two_diff a.x0 r.x0).2
  let s2 := Fp.sub s2 r.x1
  let s2 := Fp.add s2 a.x1
  let q2 := Fp.div (Fp.add s1 s2) b.x0
  ⟨(qd.quick_two_sum q1 q2).1, (qd.quick_two_sum q1 q2).2⟩

/-- Modelled from the spec: `operator/(dd_real, double)` (missing
dd_inline.h). -/
def ddDivD (a : dd_real) (b : Fp) : dd_real :=
  let q1 := Fp.div a.x0 b
  let p1 := (qd.two_prod q1 b).1
  let p2 := (qd.two_prod q1 b).2
  let s := (qd.two_diff a.x0 p1).1
  let e := (qd.two_diff a.x0 p1).2
  let e := Fp.add e a.x1
  let e := Fp.sub e p2
  let q2 := Fp.div (Fp.add s e) b
  ⟨(qd.quick_two_sum q1 q2).1, (qd.quick_two_sum q1 q2).2⟩

/-- Modelled from the spec: `operator/(double, dd_real)` (missing
dd_inline.h): converts and delegates. -/
def dDivDD (a : Fp) (b : dd_real) : dd_real := ddDiv (dd_real.ofD a) b

/-- Modelled from the spec: `inv(dd_real)` (missing dd_inline.h):
`1.0 / a`. -/
def inv (a : dd_real) : dd_real := dDivDD (.fin 1) a

/-- Modelled from the spec: `abs(dd_real)` (missing dd_inline.h):
negate when the leading limb is negative. -/
def ddAbs (a : dd_real) : dd_real :=
  if Fp.lt a.x0 (.fin 0) then ddNeg a else a

/-- Modelled from the spec: `mul_pwr2(dd_real, double)` (missing
dd_inline.h): scales each limb by an exact power of two, no
renormalization. -/
def mul_pwr2 (a : dd_real) (b : Fp) : dd_real := ⟨Fp.mul a.x0 b, Fp.mul a.x1 b⟩

/-- Modelled from the spec: `ldexp(dd_real, int)` (missing dd_inline.h):
exact power-of-two scaling of both limbs. -/
def ddLdexp (a : dd_real) (n : ℤ) : dd_real := ⟨Fp.ldexp a.x0 n, Fp.ldexp a.x1 n⟩

/-- Modelled from the spec: `to_double(dd_real)` (missing dd_inline.h):
the leading limb. -/
def toD (a : dd_real) : Fp := a.x0

/-- Modelled from the spec: `operator<(dd_real, dd_real)` (missing
dd_inline.h): lexicographic limb comparison with IEEE scalar semantics
(false on NaN limbs). -/
def ddLt (a b : dd_real) : Bool :=
  Fp.lt a.x0 b.x0 || (Fp.feq a.x0 b.x0 && Fp.lt a.x1 b.x1)

/-- Modelled from the spec: `operator>(dd_real, dd_real)` (missing
dd_inline.h). -/
def ddGt (a b : dd_real) : Bool :=
  Fp.lt b.x0 a.x0 || (Fp.feq a.x0 b.x0 && Fp.lt b.x1 a.x1)

/-- Modelled from the spec: `operator==(dd_real, dd_real)` (missing
dd_inline.h): both limbs IEEE-equal. -/
def ddEq (a b : dd_real) : Bool :=
  Fp.feq a.x0 b.x0 && Fp.feq a.x1 b.x1

/-- Modelled from the spec: `operator>(dd_real, double)` (missing
dd_inline.h). -/
def ddGtD (a : dd_real) (b : Fp) : Bool :=
  Fp.lt b a.x0 || (Fp.feq a.x0 b && Fp.lt (.fin 0) a.x1)

/-- Modelled from the spec: `operator<(dd_real, double)` (missing
dd_inline.h). -/
def ddLtD (a : dd_real) (b : Fp) : Bool :=
  Fp.lt a.x0 b || (Fp.feq a.x0 b && Fp.lt a.x1 (.fin 0))

/-- Modelled from the spec: `operator>=(dd_real, double)` (missing
dd_inline.h). -/
def ddGeD (a : dd_real) (b : Fp) : Bool :=
  Fp.lt b a.x0 || (Fp.feq a.x0 b && Fp.le (.fin 0) a.x1)

/-- Modelled from the spec: `operator<=(dd_real, double)` (missing
dd_inline.h). -/
def ddLeD (a : dd_real) (b : Fp) : Bool :=
  Fp.lt a.x0 b || (Fp.feq a.x0 b && Fp.le a.x1 (.fin 0))

/-- Modelled from the spec: `floor(dd_real)` (missing dd_inline.h). -/
def ddFloor (a : dd_real) : dd_real :=
  let hi := Fp.floor a.x0
  if Fp.feq hi a.x0 then
    let lo := Fp.floor a.x1
    ⟨(qd.quick_two_sum hi lo).1, (qd.quick_two_sum hi lo).2⟩
  else ⟨hi, .fin 0⟩

/-- Modelled from the spec: `ceil(dd_real)` (missing dd_inline.h). -/
def ddCeil (a : dd_real) : dd_real :=
  let hi := Fp.ceil a.x0
  if Fp.feq hi a.x0 then
    let lo := Fp.ceil a.x1
    ⟨(qd.quick_two_sum hi lo).1, (qd.quick_two_sum hi lo).2⟩
  else ⟨hi, .fin 0⟩

/-- Modelled from the spec: `nint(dd_real)` (missing dd_inline.h): round
the leading limb; on a tie at an exact half, a negative trailing limb
pulls the result down by one. -/
def ddNint (a : dd_real) : dd_real :=
  let hi := qd.nint a.x0
  if Fp.feq hi a.x0 then
    let lo := qd.nint a.x1
    ⟨(qd.quick_two_sum hi lo).1, (qd.quick_two_sum hi lo).2⟩
  else
    let hi := if Fp.feq (Fp.abs (Fp.sub hi a.x0)) (.fin (mkRat 1 2)) && Fp.lt a.x1 (.fin 0)
              then Fp.sub hi (.fin 1) else hi
    ⟨hi, .fin 0⟩

/-- Modelled from the spec: `aint(dd_real)` (missing dd_inline.h):
truncation toward zero, `(a.x[0] >= 0.0) ? floor(a) : ceil(a)`. -/
def ddAint (a : dd_real) : dd_real :=
  if Fp.le (.fin 0) a.x0 then ddFloor a else ddCeil a

/-- Embeds `dd_real::error` (src/C/dd_real.cpp lines 22-23): the error hook,
whose default body is empty — a no-op; the kernel signals domain errors
only through the returned canonical NaN expansion. -/
def dd_error (_msg : String) : Unit := ()

/-- Embeds `sqrt(const dd_real&)` (src/C/dd_real.cpp): Karp's trick with a native
reciprocal-square-root seed; zero maps to zero, a negative argument is a
domain error returning the canonical NaN. -/
def ddSqrt (a : dd_real) : dd_real :=
  if a.is_zero then dd_real.ofD (.fin 0)
  else if a.is_negative then dd_real._nan
  else
    let x := Fp.div (.fin 1) (qd_sqrt a.x0)
    let ax := Fp.mul a.x0 x
    dd_real.add ax (Fp.mul (ddSub a (dd_real.sqr_d ax)).x0 (Fp.mul x (.fin (mkRat 1 2))))

/-- The binary-exponentiation loop of `npwr` (src/C/dd_real.cpp):
`while (N > 0) { if (N % 2 == 1) s *= r; N /= 2; if (N > 0) r = sqr(r); }`. -/
def npwrLoop (r s : dd_real) (N : ℕ) : dd_real :=
  if N = 0 then s
  else
    let s' := if N % 2 = 1 then ddMul s r else s
    let N' := N / 2
    let r' := if 0 < N' then sqr r else r
    npwrLoop r' s' N'
  decreasing_by exact Nat.div_lt_self (Nat.pos_of_ne_zero (by assumption)) (by norm_num)

/-- Embeds `npwr` (src/C/dd_real.cpp): n-th integer power by binary
exponentiation; `0^0` is a domain error returning NaN; a negative exponent
takes the reciprocal at the end. -/
def npwr (a : dd_real) (n : ℤ) : dd_real :=
  if n = 0 then
    (if a.is_zero then dd_real._nan else dd_real.ofD (.fin 1))
  else
    let N := n.natAbs
    let s := if 1 < N then npwrLoop a (dd_real.ofD (.fin 1)) N else a
    if n < 0 then dDivDD (.fin 1) s else s

/-- Embeds `nroot` (src/C/dd_real.cpp): Newton iteration for `x^(-n) - a`;
`n <= 0` and even `n` with negative `a` are domain errors returning NaN. -/
def nroot (a : dd_real) (n : ℤ) : dd_real :=
  if n ≤ 0 then dd_real._nan
  else if n % 2 = 0 && a.is_negative then dd_real._nan
  else if n = 1 then a
  else if n = 2 then ddSqrt a
  else if a.is_zero then dd_real.ofD (.fin 0)
  else
    let r := ddAbs a
    let x := dd_real.ofD (qd_exp (Fp.neg (Fp.div (qd_log r.x0) (.fin (n : ℚ)))))
    let x := ddAdd x (ddDivD (ddMul x (dSubDD (.fin 1) (ddMul r (npwr x n)))) (.fin (n : ℚ)))
    if Fp.lt a.x0 (.fin 0) then dDivDD (.fin 1) (ddNeg x) else dDivDD (.fin 1) x

/-- Embeds `pow(const dd_real&, int)` (src/C/dd_real.cpp): `npwr`. -/
def powInt (a : dd_real) (n : ℤ) : dd_real := npwr a n

/-- The `inv_fact` table of `dd_real.cpp`: reciprocal factorials
`1/3!, 1/4!, ..., 1/17!` as double-double literal pairs (indices 0..14;
out-of-range indices are never accessed by the kernel's loops). -/
def inv_fact : ℕ → dd_real
  | 0 => ⟨.fin (mkRat 166666666666666657 (10 ^ 18)), .fin (mkRat 925185853854297066 (10 ^ 35))⟩
  | 1 => ⟨.fin (mkRat 416666666666666644 (10 ^ 19)), .fin (mkRat 231296463463574266 (10 ^ 35))⟩
  | 2 => ⟨.fin (mkRat 833333333333333322 (10 ^ 20)), .fin (mkRat 115648231731787138 (10 ^ 36))⟩
  | 3 => ⟨.fin (mkRat 138888888888888894 (10 ^ 20)), .fin (mkRat (-530054395437357706) (10 ^ 37))⟩
  | 4 => ⟨.fin (mkRat 198412698412698413 (10 ^ 21)), .fin (mkRat 172095582934207053 (10 ^ 39))⟩
  | 5 => ⟨.fin (mkRat 248015873015873016 (10 ^ 22)), .fin (mkRat 215119478667758816 (10 ^ 40))⟩
  | 6 => ⟨.fin (mkRat 275573192239858925 (10 ^ 23)), .fin (mkRat (-185839327404647208) (10 ^ 39))⟩
  | 7 => ⟨.fin (mkRat 275573192239858883 (10 ^ 24)), .fin (mkRat 237677146222502973 (10 ^ 40))⟩
  | 8 => ⟨.fin (mkRat 250521083854417202 (10 ^ 25)), .fin (mkRat (-144881407093591197) (10 ^ 41))⟩
  | 9 => ⟨.fin (mkRat 208767569878681002 (10 ^ 26)), .fin (mkRat (-120734505911325997) (10 ^ 42))⟩
  | 10 => ⟨.fin (mkRat 160590438368216133 (10 ^ 27)), .fin (mkRat 125852945887520981 (10 ^ 43))⟩
  | 11 => ⟨.fin (mkRat 114707455977297245 (10 ^ 28)), .fin (mkRat 206555127528307454 (10 ^ 45))⟩
  | 12 => ⟨.fin (mkRat 764716373181981641 (10 ^ 30)), .fin (mkRat 703872877733453001 (10 ^ 47))⟩
  | 13 => ⟨.fin (mkRat 477947733238738525 (10 ^ 31)), .fin (mkRat 439920548583408126 (10 ^ 48))⟩
  | 14 => ⟨.fin (mkRat 281145725434552060 (10 ^ 32)), .fin (mkRat 165088427308614326 (10 ^ 48))⟩
  | _ => dd_real.ofD (.fin 0)

/-- The Taylor-term do-while loop of `exp` (src/C/dd_real.cpp):
`do { s += t; p *= r; ++i; t = p * inv_fact[i]; }
while (|to_double(t)| > inv_k * _eps && i < 5);`
embedded with structural fuel (`none` would mean the structural bound was
exhausted; it never is, see the termination theorems).  Returns the final
`(s, t)`. -/
def expLoop (r : dd_real) : ℕ → ℕ → dd_real → dd_real → dd_real →
    Option (dd_real × dd_real)
  | 0, _, _, _, _ => none
  | fuel+1, i, s, p, t =>
    let s := ddAdd s t
    let p := ddMul p r
    let i := i + 1
    let t := ddMul p (inv_fact i)
    if Fp.lt (Fp.mul (.fin (mkRat 1 512)) dd_real._eps) (Fp.abs (toD t)) ∧ i < 5 then
      expLoop r fuel i s p t
    else some (s, t)

/-- Embeds `exp` (src/C/dd_real.cpp): special cases for `a.x[0] <= -709`,
`a.x[0] >= 709`, zero and one; otherwise reduction by `m*log 2` and `/512`,
a bounded Taylor loop, nine repeated squarings, and an exact `2^m`
scaling. -/
def ddExp (a : dd_real) : Option dd_real :=
  if Fp.le a.x0 (.fin (-709)) then some (dd_real.ofD (.fin 0))
  else if Fp.le (.fin 709) a.x0 then some dd_real._inf
  else if a.is_zero then some (dd_real.ofD (.fin 1))
  else if a.is_one then some dd_real._e
  else
    let m := Fp.floor (Fp.add (Fp.div a.x0 dd_real._log2.x0) (.fin (mkRat 1 2)))
    let r := mul_pwr2 (ddSub a (ddMulD dd_real._log2 m)) (.fin (mkRat 1 512))
    let p := sqr r
    let s := ddAdd r (mul_pwr2 p (.fin (mkRat 1 2)))
    let p := ddMul p r
    let t := ddMul p (inv_fact 0)
    (expLoop r 5 0 s p t).map fun st =>
      let s := ddAdd st.1 st.2
      let s := ddAdd (mul_pwr2 s (.fin 2)) (sqr s)
      let s := ddAdd (mul_pwr2 s (.fin 2)) (sqr s)
      let s := ddAdd (mul_pwr2 s (.fin 2)) (sqr s)
      let s := ddAdd (mul_pwr2 s (.fin 2)) (sqr s)
      let s := ddAdd (mul_pwr2 s (.fin 2)) (sqr s)
      let s := ddAdd (mul_pwr2 s (.fin 2)) (sqr s)
      let s := ddAdd (mul_pwr2 s (.fin 2)) (sqr s)
      let s := ddAdd (mul_pwr2 s (.fin 2)) (sqr s)
      let s := ddAdd (mul_pwr2 s (.fin 2)) (sqr s)
      let s := ddAddD s (.fin 1)
      ddLdexp s (Fp.toInt m)

/-- Embeds `log` (src/C/dd_real.cpp): `log 1 = 0`, a nonpositive leading limb is a
domain error returning NaN; otherwise one Newton step
`x + a * exp(-x) - 1` from a native-precision seed. -/
def ddLog (a : dd_real) : Option dd_real :=
  if a.is_one then some (dd_real.ofD (.fin 0))
  else if Fp.le a.x0 (.fin 0) then some dd_real._nan
  else
    let x := dd_real.ofD (qd_log a.x0)
    (ddExp (ddNeg x)).map fun e => ddSubD (ddAdd x (ddMul a e)) (.fin 1)

/-- Embeds `log10` (src/C/dd_real.cpp): `log(a) / _log10`. -/
def ddLog10 (a : dd_real) : Option dd_real :=
  (ddLog a).map fun l => ddDiv l dd_real._log10

/-- Embeds `pow(const dd_real&, const dd_real&)` (src/C/dd_real.cpp):
`exp(b * log(a))`. -/
def ddPow (a b : dd_real) : Option dd_real :=
  (ddLog a).bind fun l => ddExp (ddMul b l)

/-- The `sin_table` of `dd_real.cpp`: `sin(k*pi/16)`, k = 1..4, as
double-double pairs (index k-1). -/
def sin_table : ℕ → dd_real
  | 0 => ⟨.fin (mkRat 1950903220161282758 (10 ^ 19)), .fin (mkRat (-7991079068461731263) (10 ^ 36))⟩
  | 1 => ⟨.fin (mkRat 3826834323650897818 (10 ^ 19)), .fin (mkRat (-1005077269646158761) (10 ^ 35))⟩
  | 2 => ⟨.fin (mkRat 5555702330196021776 (10 ^ 19)), .fin (mkRat 4709410940561676821 (10 ^ 35))⟩
  | 3 => ⟨.fin (mkRat 7071067811865475727 (10 ^ 19)), .fin (mkRat (-4833646656726456726) (10 ^ 35))⟩
  | _ => dd_real.ofD (.fin 0)

/-- The `cos_table` of `dd_real.cpp`: `cos(k*pi/16)`, k = 1..4. -/
def cos_table : ℕ → dd_real
  | 0 => ⟨.fin (mkRat 9807852804032304306 (10 ^ 19)), .fin (mkRat 1854693999782500573 (10 ^ 35))⟩
  | 1 => ⟨.fin (mkRat 9238795325112867385 (10 ^ 19)), .fin (mkRat 1764504708433667706 (10 ^ 35))⟩
  | 2 => ⟨.fin (mkRat 8314696123025452357 (10 ^ 19)), .fin (mkRat 1407385698472802389 (10 ^ 36))⟩
  | 3 => ⟨.fin (mkRat 7071067811865475727 (10 ^ 19)), .fin (mkRat (-4833646656726456726) (10 ^ 35))⟩
  | _ => dd_real.ofD (.fin 0)

/-- The shared do-while Taylor loop of `sin_taylor` and `cos_taylor`
(src/C/dd_real.cpp):
`do { r *= x; t = r * inv_fact[i]; s += t; i += 2; }
while (i < n_inv_fact && |to_double(t)| > thresh);`
embedded with structural fuel. -/
def taylorLoop (x : dd_real) (thresh : Fp) : ℕ → ℕ → dd_real → dd_real →
    Option dd_real
  | 0, _, _, _ => none
  | fuel+1, i, r, s =>
    let r := ddMul r x
    let t := ddMul r (inv_fact i)
    let s := ddAdd s t
    let i := i + 2
    if i < 15 ∧ Fp.lt thresh (Fp.abs (toD t)) then
      taylorLoop x thresh fuel i r s
    else some s

/-- Embeds `sin_taylor` (src/C/dd_real.cpp): Taylor series for `sin` on
`|a| <= pi/32`, with threshold `0.5 * |to_double(a)| * _eps`. -/
def sin_taylor (a : dd_real) : Option dd_real :=
  let thresh := Fp.mul (Fp.mul (.fin (mkRat 1 2)) (Fp.abs (toD a))) dd_real._eps
  if a.is_zero then some (dd_real.ofD (.fin 0))
  else
    let x := ddNeg (sqr a)
    taylorLoop x thresh 8 0 a a

/-- Embeds `cos_taylor` (src/C/dd_real.cpp), threshold `0.5 * _eps`. -/
def cos_taylor (a : dd_real) : Option dd_real :=
  let thresh := Fp.mul (.fin (mkRat 1 2)) dd_real._eps
  if a.is_zero then some (dd_real.ofD (.fin 1))
  else
    let x := ddNeg (sqr a)
    let r := x
    let s := dAddDD (.fin 1) (mul_pwr2 r (.fin (mkRat 1 2)))
    taylorLoop x thresh 8 1 r s

/-- Embeds `sincos_taylor` (src/C/dd_real.cpp): `sin` by Taylor series, `cos` as
`sqrt(1 - sin^2)`.  Returns `(sin_a, cos_a)`. -/
def sincos_taylor (a : dd_real) : Option (dd_real × dd_real) :=
  if a.is_zero then some (dd_real.ofD (.fin 0), dd_real.ofD (.fin 1))
  else (sin_taylor a).map fun s => (s, ddSqrt (dSubDD (.fin 1) (sqr s)))

/-- The argument reduction shared by `sin` (src/C/dd_real.cpp): reduce
modulo `2*pi` by `nint`, then modulo `pi/2` (multiplier `j`) and modulo
`pi/16` (multiplier `k`), returning `(j, k, t)`. -/
def sinReduce (a : dd_real) : ℤ × ℤ × dd_real :=
  let z := ddNint (ddDiv a dd_real._2pi)
  let r := ddSub a (ddMul dd_real._2pi z)
  let q := Fp.floor (Fp.add (Fp.div r.x0 dd_real._pi2.x0) (.fin (mkRat 1 2)))
  let t := ddSub r (ddMulD dd_real._pi2 q)
  let j := Fp.toInt q
  let q2 := Fp.floor (Fp.add (Fp.div t.x0 dd_real._pi16.x0) (.fin (mkRat 1 2)))
  let t := ddSub t (ddMulD dd_real._pi16 q2)
  let k := Fp.toInt q2
  (j, k, t)

/-- The post-reduction dispatch of `sin` (src/C/dd_real.cpp): reduction
failures (`j` outside `[-2,2]`, `|k| > 4`) are errors returning NaN;
`k = 0` dispatches on the quadrant alone, otherwise the `pi/16` table and
angle-addition identities are used. -/
def sinDispatch (j k : ℤ) (t : dd_real) : Option dd_real :=
  if j < -2 ∨ 2 < j then some dd_real._nan
  else if 4 < k.natAbs then some dd_real._nan
  else if k = 0 then
    (if j = 0 then sin_taylor t
     else if j = 1 then cos_taylor t
     else if j = -1 then (cos_taylor t).map ddNeg
     else (sin_taylor t).map ddNeg)
  else
    let u := cos_table (k.natAbs - 1)
    let v := sin_table (k.natAbs - 1)
    (sincos_taylor t).map fun p =>
      let sin_t := p.1
      let cos_t := p.2
      if j = 0 then
        (if 0 < k then ddAdd (ddMul u sin_t) (ddMul v cos_t)
         else ddSub (ddMul u sin_t) (ddMul v cos_t))
      else if j = 1 then
        (if 0 < k then ddSub (ddMul u cos_t) (ddMul v sin_t)
         else ddAdd (ddMul u cos_t) (ddMul v sin_t))
      else if j = -1 then
        (if 0 < k then ddSub (ddMul v sin_t) (ddMul u cos_t)
         else ddSub (ddNeg (ddMul u cos_t)) (ddMul v sin_t))
      else
        (if 0 < k then ddSub (ddNeg (ddMul u sin_t)) (ddMul v cos_t)
         else ddSub (ddMul v cos_t) (ddMul u sin_t))

/-- Embeds `sin` (src/C/dd_real.cpp). -/
def ddSin (a : dd_real) : Option dd_real :=
  if a.is_zero then some (dd_real.ofD (.fin 0))
  else
    let j := (sinReduce a).1
    let k := (sinReduce a).2.1
    let t := (sinReduce a).2.2
    sinDispatch j k t

/-- The argument reduction of `cos` (src/C/dd_real.cpp); identical to the
one in `sin` except that the `2*pi` multiple is formed as `z * _2pi`. -/
def cosReduce (a : dd_real) : ℤ × ℤ × dd_real :=
  let z := ddNint (ddDiv a dd_real._2pi)
  let r := ddSub a (ddMul z dd_real._2pi)
  let q := Fp.floor (Fp.add (Fp.div r.x0 dd_real._pi2.x0) (.fin (mkRat 1 2)))
  let t := ddSub r (ddMulD dd_real._pi2 q)
  let j := Fp.toInt q
  let q2 := Fp.floor (Fp.add (Fp.div t.x0 dd_real._pi16.x0) (.fin (mkRat 1 2)))
  let t := ddSub t (ddMulD dd_real._pi16 q2)
  let k := Fp.toInt q2
  (j, k, t)

/-- The post-reduction dispatch of `cos` (src/C/dd_real.cpp). -/
def cosDispatch (j k : ℤ) (t : dd_real) : Option dd_real :=
  if j < -2 ∨ 2 < j then some dd_real._nan
  else if 4 < k.natAbs then some dd_real._nan
  else if k = 0 then
    (if j = 0 then cos_taylor t
     else if j = 1 then (sin_taylor t).map ddNeg
     else if j = -1 then sin_taylor t
     else (cos_taylor t).map ddNeg)
  else
    let u := cos_table (k.natAbs - 1)
    let v := sin_table (k.natAbs - 1)
    (sincos_taylor t).map fun p =>
      let sin_t := p.1
      let cos_t := p.2
      if j = 0 then
        (if 0 < k then ddSub (ddMul u cos_t) (ddMul v sin_t)
         else ddAdd (ddMul u cos_t) (ddMul v sin_t))
      else if j = 1 then
        (if 0 < k then ddSub (ddNeg (ddMul u sin_t)) (ddMul v cos_t)
         else ddSub (ddMul v cos_t) (ddMul u sin_t))
      else if j = -1 then
        (if 0 < k then ddAdd (ddMul u sin_t) (ddMul v cos_t)
         else ddSub (ddMul u sin_t) (ddMul v cos_t))
      else
        (if 0 < k then ddSub (ddMul v sin_t) (ddMul u cos_t)
         else ddSub (ddNeg (ddMul u cos_t)) (ddMul v sin_t))

/-- Embeds `cos` (src/C/dd_real.cpp). -/
def ddCos (a : dd_real) : Option dd_real :=
  if a.is_zero then some (dd_real.ofD (.fin 1))
  else
    let j := (cosReduce a).1
    let k := (cosReduce a).2.1
    let t := (cosReduce a).2.2
    cosDispatch j k t

/-- Embeds `sincos` (src/C/dd_real.cpp): computes `sin` and `cos` together with
one shared reduction; returns `(sin_a, cos_a)`, or the NaN pair on a
reduction failure (`|j| > 2` or `|k| > 4`). -/
def ddSincos (a : dd_real) : Option (dd_real × dd_real) :=
  if a.is_zero then some (dd_real.ofD (.fin 0), dd_real.ofD (.fin 1))
  else
    let z := ddNint (ddDiv a dd_real._2pi)
    let r := ddSub a (ddMul dd_real._2pi z)
    let q := Fp.floor (Fp.add (Fp.div r.x0 dd_real._pi2.x0) (.fin (mkRat 1 2)))
    let t := ddSub r (ddMulD dd_real._pi2 q)
    let j := Fp.toInt q
    let q2 := Fp.floor (Fp.add (Fp.div t.x0 dd_real._pi16.x0) (.fin (mkRat 1 2)))
    let t := ddSub t (ddMulD dd_real._pi16 q2)
    let k := Fp.toInt q2
    if 2 < j.natAbs then some (dd_real._nan, dd_real._nan)
    else if 4 < k.natAbs then some (dd_real._nan, dd_real._nan)
    else
      (sincos_taylor t).map fun p =>
        let sin_t := p.1
        let cos_t := p.2
        let s := if k.natAbs = 0 then sin_t
          else
            let u := cos_table (k.natAbs - 1)
            let v := sin_table (k.natAbs - 1)
            if 0 < k then ddAdd (ddMul u sin_t) (ddMul v cos_t)
            else ddSub (ddMul u sin_t) (ddMul v cos_t)
        let c := if k.natAbs = 0 then cos_t
          else
            let u := cos_table (k.natAbs - 1)
            let v := sin_table (k.natAbs - 1)
            if 0 < k then ddSub (ddMul u cos_t) (ddMul v sin_t)
            else ddAdd (ddMul u cos_t) (ddMul v sin_t)
        if j.natAbs = 0 then (s, c)
        else if j = 1 then (c, ddNeg s)
        else if j = -1 then (ddNeg c, s)
        else (ddNeg s, ddNeg c)

/-- Embeds `atan2` (src/C/dd_real.cpp): axis and diagonal special cases return
exact copies of the stored constants (`(0,0)` is a domain error returning
NaN); the general case normalizes onto the unit circle and applies one of
two dual Newton corrections from a native-precision seed. -/
def ddAtan2 (y x : dd_real) : Option dd_real :=
  if x.is_zero then
    (if y.is_zero then some dd_real._nan
     else if y.is_positive then some dd_real._pi2 else some (ddNeg dd_real._pi2))
  else if y.is_zero then
    (if x.is_positive then some (dd_real.ofD (.fin 0)) else some dd_real._pi)
  else if ddEq x y then
    (if y.is_positive then some dd_real._pi4 else some (ddNeg dd_real._3pi4))
  else if ddEq x (ddNeg y) then
    (if y.is_positive then some dd_real._3pi4 else some (ddNeg dd_real._pi4))
  else
    let r := ddSqrt (ddAdd (sqr x) (sqr y))
    let xx := ddDiv x r
    let yy := ddDiv y r
    let z := dd_real.ofD (qd_atan2 (toD y) (toD x))
    if Fp.lt (Fp.abs yy.x0) (Fp.abs xx.x0) then
      (ddSincos z).map fun p => ddAdd z (ddDiv (ddSub yy p.1) p.2)
    else
      (ddSincos z).map fun p => ddSub z (ddDiv (ddSub xx p.2) p.1)

/-- Embeds `atan` (src/C/dd_real.cpp): `atan2(a, 1)`. -/
def ddAtan (a : dd_real) : Option dd_real := ddAtan2 a (dd_real.ofD (.fin 1))

/-- Embeds `tan` (src/C/dd_real.cpp): `sin/cos` from the shared `sincos`. -/
def ddTan (a : dd_real) : Option dd_real :=
  (ddSincos a).map fun p => ddDiv p.1 p.2

/-- Embeds `asin` (src/C/dd_real.cpp): `|a| > 1` is a domain error returning NaN;
`|a| = 1` returns the exact `±pi/2`; otherwise `atan2(a, sqrt(1-a^2))`. -/
def ddAsin (a : dd_real) : Option dd_real :=
  let abs_a := ddAbs a
  if ddGtD abs_a (.fin 1) then some dd_real._nan
  else if abs_a.is_one then
    (if a.is_positive then some dd_real._pi2 else some (ddNeg dd_real._pi2))
  else ddAtan2 a (ddSqrt (dSubDD (.fin 1) (sqr a)))

/-- Embeds `acos` (src/C/dd_real.cpp). -/
def ddAcos (a : dd_real) : Option dd_real :=
  let abs_a := ddAbs a
  if ddGtD abs_a (.fin 1) then some dd_real._nan
  else if abs_a.is_one then
    (if a.is_positive then some (dd_real.ofD (.fin 0)) else some dd_real._pi)
  else ddAtan2 (ddSqrt (dSubDD (.fin 1) (sqr a))) a

/-- The small-argument Taylor do-while loop of `sinh` (src/C/dd_real.cpp):
`do { m += 2.0; t *= r; t /= (m-1) * m; s += t; } while (abs(t) > thresh);`
— its only exit condition is `|t| <= thresh`; embedded with structural
fuel (`none` = the bound was exhausted). -/
def sinhLoop (r : dd_real) (thresh : Fp) : ℕ → Fp → dd_real → dd_real →
    Option dd_real
  | 0, _, _, _ => none
  | fuel+1, m, t, s =>
    let m := Fp.add m (.fin 2)
    let t := ddMul t r
    let t := ddDivD t (Fp.mul (Fp.sub m (.fin 1)) m)
    let s := ddAdd s t
    if ddGtD (ddAbs t) thresh then sinhLoop r thresh fuel m t s
    else some s

/-- Embeds `sinh` (src/C/dd_real.cpp): exp-based closed form for `|a| > 0.05`,
else the direct Taylor series (avoiding cancellation), with threshold
`|to_double(a) * _eps|`. -/
def ddSinh (a : dd_real) : Option dd_real :=
  if a.is_zero then some (dd_real.ofD (.fin 0))
  else if ddGtD (ddAbs a) (.fin (mkRat 5 (10 ^ 2))) then
    (ddExp a).map fun ea => mul_pwr2 (ddSub ea (inv ea)) (.fin (mkRat 1 2))
  else
    let s := a
    let t := a
    let r := sqr t
    let m : Fp := .fin 1
    let thresh := Fp.abs (Fp.mul (toD a) dd_real._eps)
    sinhLoop r thresh 12 m t s

/-- Embeds `cosh` (src/C/dd_real.cpp). -/
def ddCosh (a : dd_real) : Option dd_real :=
  if a.is_zero then some (dd_real.ofD (.fin 1))
  else (ddExp a).map fun ea => mul_pwr2 (ddAdd ea (inv ea)) (.fin (mkRat 1 2))

/-- Embeds `tanh` (src/C/dd_real.cpp). -/
def ddTanh (a : dd_real) : Option dd_real :=
  if a.is_zero then some (dd_real.ofD (.fin 0))
  else if Fp.lt (.fin (mkRat 5 (10 ^ 2))) (Fp.abs (toD a)) then
    (ddExp a).map fun ea =>
      let inv_ea := inv ea
      ddDiv (ddSub ea inv_ea) (ddAdd ea inv_ea)
  else
    (ddSinh a).map fun s => ddDiv s (ddSqrt (dAddDD (.fin 1) (sqr s)))

/-- Embeds `sincosh` (src/C/dd_real.cpp): returns `(sinh_a, cosh_a)`. -/
def ddSincosh (a : dd_real) : Option (dd_real × dd_real) :=
  if Fp.le (Fp.abs (toD a)) (.fin (mkRat 5 (10 ^ 2))) then
    (ddSinh a).map fun s => (s, ddSqrt (dAddDD (.fin 1) (sqr s)))
  else
    (ddExp a).map fun ea =>
      (mul_pwr2 (ddSub ea (inv ea)) (.fin (mkRat 1 2)),
       mul_pwr2 (ddAdd ea (inv ea)) (.fin (mkRat 1 2)))

/-- Embeds `asinh` (src/C/dd_real.cpp): `log(a + sqrt(a^2 + 1))`. -/
def ddAsinh (a : dd_real) : Option dd_real :=
  ddLog (ddAdd a (ddSqrt (ddAddD (sqr a) (.fin 1))))

/-- Embeds `acosh` (src/C/dd_real.cpp): `a < 1` is a domain error returning NaN;
otherwise `log(a + sqrt(a^2 - 1))`. -/
def ddAcosh (a : dd_real) : Option dd_real :=
  if ddLtD a (.fin 1) then some dd_real._nan
  else ddLog (ddAdd a (ddSqrt (ddSubD (sqr a) (.fin 1))))

/-- Embeds `atanh` (src/C/dd_real.cpp): `|a| >= 1` is a domain error returning
NaN; otherwise `0.5 * log((1+a)/(1-a))`. -/
def ddAtanh (a : dd_real) : Option dd_real :=
  if ddGeD (ddAbs a) (.fin 1) then some dd_real._nan
  else (ddLog (ddDiv (dAddDD (.fin 1) a) (dSubDD (.fin 1) a))).map
    fun l => mul_pwr2 l (.fin (mkRat 1 2))

/-- Embeds `fmod` (src/C/dd_real.cpp): `a - b * aint(a/b)`. -/
def ddFmod (a b : dd_real) : dd_real :=
  let n := ddAint (ddDiv a b)
  ddSub a (ddMul b n)

/-- Modelled from the spec: `drem` (missing from src; spec section 4.6:
remainder with the round-to-nearest quotient): `a - b * nint(a/b)`. -/
def ddDrem (a b : dd_real) : dd_real :=
  let n := ddNint (ddDiv a b)
  ddSub a (ddMul b n)

/-- Modelled from the spec: `divrem` (missing from src; spec section 4.6):
returns the rounded quotient and the remainder as a pair. -/
def ddDivrem (a b : dd_real) : dd_real × dd_real :=
  let n := ddNint (ddDiv a b)
  (n, ddSub a (ddMul b n))

/-- Embeds `c_dd_comp` (src/C/c_dd.cpp): tri-state comparison,
`a < b ? -1 : a > b ? 1 : 0`. -/
def c_dd_comp (a b : dd_real) : ℤ :=
  if ddLt a b then -1
  else if ddGt a b then 1
  else 0

/-- Embeds `c_dd_neg` (src/C/c_dd.cpp): negates both limbs. -/
def c_dd_neg (a : dd_real) : dd_real := ⟨Fp.neg a.x0, Fp.neg a.x1⟩

/-- Helper for stating NaN-propagation: the result of an Option-valued
kernel operation exists and is a NaN expansion. -/
def isNaNopt : Option dd_real → Bool
  | some r => r.is_nanb
  | none => false

/-- Pair version of `isNaNopt` (for `sincos`/`sincosh`): both results
exist and are NaN. -/
def isNaNopt2 : Option (dd_real × dd_real) → Bool
  | some p => p.1.is_nanb && p.2.is_nanb
  | none => false

/-! ### NaN absorption at the scalar level -/

@[simp] theorem Fp.nan_add (b : Fp) : Fp.add .nan b = .nan := by cases b <;> rfl

@[simp] theorem Fp.add_nan (a : Fp) : Fp.add a .nan = .nan := by cases a <;> rfl

@[simp] theorem Fp.neg_nan : Fp.neg .nan = .nan := rfl

@[simp] theorem Fp.nan_sub (b : Fp) : Fp.sub .nan b = .nan := by
  unfold Fp.sub; simp

@[simp] theorem Fp.sub_nan (a : Fp) : Fp.sub a .nan = .nan := by
  unfold Fp.sub; simp [Fp.neg]

@[simp] theorem Fp.nan_mul (b : Fp) : Fp.mul .nan b = .nan := by cases b <;> rfl

@[simp] theorem Fp.mul_nan (a : Fp) : Fp.mul a .nan = .nan := by cases a <;> rfl

@[simp] theorem Fp.nan_div (b : Fp) : Fp.div .nan b = .nan := by cases b <;> rfl

@[simp] theorem Fp.div_nan (a : Fp) : Fp.div a .nan = .nan := by cases a <;> rfl

@[simp] theorem Fp.nan_lt (b : Fp) : Fp.lt .nan b = false := by cases b <;> rfl

@[simp] theorem Fp.lt_nan (a : Fp) : Fp.lt a .nan = false := by cases a <;> rfl

@[simp] theorem Fp.nan_feq (b : Fp) : Fp.feq .nan b = false := by cases b <;> rfl

@[simp] theorem Fp.feq_nan (a : Fp) : Fp.feq a .nan = false := by cases a <;> rfl

@[simp] theorem Fp.nan_le (b : Fp) : Fp.le .nan b = false := by
  unfold Fp.le; simp

@[simp] theorem Fp.le_nan (a : Fp) : Fp.le a .nan = false := by
  unfold Fp.le; simp

@[simp] theorem Fp.abs_nan : Fp.abs .nan = .nan := rfl

@[simp] theorem Fp.floor_nan : Fp.floor .nan = .nan := rfl

@[simp] theorem Fp.ceil_nan : Fp.ceil .nan = .nan := rfl

@[simp] theorem Fp.ldexp_nan (n : ℤ) : Fp.ldexp .nan n = .nan := rfl

@[simp] theorem Fp.isNaN_nan : Fp.isNaN .nan = true := rfl

/-! ### NaN absorption through the error-free transforms -/

@[simp] theorem qd.two_sum_nan_left (b : Fp) : qd.two_sum .nan b = (.nan, .nan) := by
  unfold qd.two_sum; simp

@[simp] theorem qd.two_sum_nan_right (a : Fp) : qd.two_sum a .nan = (.nan, .nan) := by
  unfold qd.two_sum; simp

@[simp] theorem qd.two_diff_nan_left (b : Fp) : qd.two_diff .nan b = (.nan, .nan) := by
  unfold qd.two_diff; simp

@[simp] theorem qd.two_diff_nan_right (a : Fp) : qd.two_diff a .nan = (.nan, .nan) := by
  unfold qd.two_diff; simp

@[simp] theorem qd.quick_two_sum_nan_left (b : Fp) :
    qd.quick_two_sum .nan b = (.nan, .nan) := by
  unfold qd.quick_two_sum; simp

@[simp] theorem qd.quick_two_sum_nan_right (a : Fp) :
    qd.quick_two_sum a .nan = (.nan, .nan) := by
  unfold qd.quick_two_sum; simp

@[simp] theorem qd.split_nan : qd.split .nan = (.nan, .nan) := by
  unfold qd.split; simp

@[simp] theorem qd.two_prod_nan_left (b : Fp) : qd.two_prod .nan b = (.nan, .nan) := by
  unfold qd.two_prod; simp

@[simp] theorem qd.two_prod_nan_right (a : Fp) : qd.two_prod a .nan = (.nan, .nan) := by
  unfold qd.two_prod; simp

@[simp] theorem qd.two_sqr_nan : qd.two_sqr .nan = (.nan, .nan) := by
  unfold qd.two_sqr; simp

/-! ### NaN absorption through the double-double operations -/

@[simp] theorem ddAdd_nan_left (b : dd_real) : ddAdd dd_real._nan b = dd_real._nan := by
  unfold ddAdd dd_real._nan; simp

@[simp] theorem ddAdd_nan_right (a : dd_real) : ddAdd a dd_real._nan = dd_real._nan := by
  unfold ddAdd dd_real._nan; simp

@[simp] theorem ddSub_nan_left (b : dd_real) : ddSub dd_real._nan b = dd_real._nan := by
  unfold ddSub dd_real._nan; simp

@[simp] theorem ddSub_nan_right (a : dd_real) : ddSub a dd_real._nan = dd_real._nan := by
  unfold ddSub dd_real._nan; simp

@[simp] theorem ddMul_nan_left (b : dd_real) : ddMul dd_real._nan b = dd_real._nan := by
  unfold ddMul dd_real._nan; simp

@[simp] theorem ddMul_nan_right (a : dd_real) : ddMul a dd_real._nan = dd_real._nan := by
  unfold ddMul dd_real._nan; simp

@[simp] theorem ddMulD_nan_left (b : Fp) : ddMulD dd_real._nan b = dd_real._nan := by
  unfold ddMulD dd_real._nan; simp

@[simp] theorem ddMulD_nan_right (a : dd_real) : ddMulD a .nan = dd_real._nan := by
  unfold ddMulD dd_real._nan; simp

@[simp] theorem ddAddD_nan_left (b : Fp) : ddAddD dd_real._nan b = dd_real._nan := by
  unfold ddAddD dd_real._nan; simp

@[simp] theorem ddAddD_nan_right (a : dd_real) : ddAddD a .nan = dd_real._nan := by
  unfold ddAddD dd_real._nan; simp

@[simp] theorem ddSubD_nan_left (b : Fp) : ddSubD dd_real._nan b = dd_real._nan := by
  unfold ddSubD dd_real._nan; simp

@[simp] theorem dSubDD_nan_right (a : Fp) : dSubDD a dd_real._nan = dd_real._nan := by
  unfold dSubDD dd_real._nan; simp

@[simp] theorem ddDiv_nan_left (b : dd_real) : ddDiv dd_real._nan b = dd_real._nan := by
  unfold ddDiv dd_real._nan; simp

@[simp] theorem ddDiv_nan_right (a : dd_real) : ddDiv a dd_real._nan = dd_real._nan := by
  unfold ddDiv; rw [show (dd_real._nan).x0 = .nan from rfl]; simp [dd_real._nan]

@[simp] theorem ddDivD_nan_left (b : Fp) : ddDivD dd_real._nan b = dd_real._nan := by
  unfold ddDivD dd_real._nan; simp

@[simp] theorem ddDivD_nan_right (a : dd_real) : ddDivD a .nan = dd_real._nan := by
  unfold ddDivD dd_real._nan; simp

@[simp] theorem ddNeg_nan : ddNeg dd_real._nan = dd_real._nan := rfl

@[simp] theorem sqr_nan : sqr dd_real._nan = dd_real._nan := by
  unfold sqr dd_real._nan; simp

@[simp] theorem ddSqrt_nan : ddSqrt dd_real._nan = dd_real._nan := by decide

@[simp] theorem ddEq_nan_right (x : dd_real) : ddEq x dd_real._nan = false := by
  unfold ddEq; rw [show (dd_real._nan).x0 = .nan from rfl]; simp

@[simp] theorem ddEq_nan_left (x : dd_real) : ddEq dd_real._nan x = false := by
  unfold ddEq; rw [show (dd_real._nan).x0 = .nan from rfl]; simp

@[simp] theorem dd_real.is_zero_nan : dd_real.is_zero dd_real._nan = false := rfl

@[simp] theorem dd_real.is_nanb_nan : dd_real.is_nanb dd_real._nan = true := rfl

@[simp] theorem ddMul_nanLead_right (a : dd_real) (w : Fp) :
    ddMul a ⟨.nan, w⟩ = dd_real._nan := by
  unfold ddMul dd_real._nan; simp

@[simp] theorem ddMul_nanLead_left (b : dd_real) (w : Fp) :
    ddMul ⟨.nan, w⟩ b = dd_real._nan := by
  unfold ddMul dd_real._nan; simp

@[simp] theorem sqr_nanLead (w : Fp) : sqr ⟨.nan, w⟩ = dd_real._nan := by
  unfold sqr dd_real._nan; simp

@[simp] theorem ddAbs_nan : ddAbs dd_real._nan = dd_real._nan := by decide

@[simp] theorem ddNint_nan : ddNint dd_real._nan = ⟨.nan, .fin 0⟩ := by decide

@[simp] theorem ddAint_nan : ddAint dd_real._nan = ⟨.nan, .fin 0⟩ := by decide

@[simp] theorem qd_atan2_nan_left (x : Fp) : qd_atan2 .nan x = .nan := by
  unfold qd_atan2; simp

@[simp] theorem qd_atan2_nan_right (y : Fp) : qd_atan2 y .nan = .nan := by
  unfold qd_atan2; simp

theorem ddFmod_nan_left (b : dd_real) : ddFmod dd_real._nan b = dd_real._nan := by
  unfold ddFmod; simp

theorem ddFmod_nan_right (a : dd_real) : ddFmod a dd_real._nan = dd_real._nan := by
  unfold ddFmod; simp

theorem ddDrem_nan_left (b : dd_real) : ddDrem dd_real._nan b = dd_real._nan := by
  unfold ddDrem; simp

theorem ddDrem_nan_right (a : dd_real) : ddDrem a dd_real._nan = dd_real._nan := by
  unfold ddDrem; simp

theorem ddDivrem_nan_left (b : dd_real) :
    (ddDivrem dd_real._nan b).1.is_nanb = true ∧
      (ddDivrem dd_real._nan b).2 = dd_real._nan := by
  unfold ddDivrem; simp [dd_real.is_nanb, Fp.isNaN]

theorem ddDivrem_nan_right (a : dd_real) :
    (ddDivrem a dd_real._nan).1.is_nanb = true ∧
      (ddDivrem a dd_real._nan).2 = dd_real._nan := by
  unfold ddDivrem; simp [dd_real.is_nanb, Fp.isNaN]

theorem npwrLoop_nan (N : ℕ) (hN : 1 ≤ N) :
    ∀ s : dd_real, npwrLoop dd_real._nan s N = dd_real._nan := by
  induction N using Nat.strong_induction_on with
  | _ N ih =>
    intro s
    rw [npwrLoop]
    have hN0 : ¬(N = 0) := by omega
    simp only [hN0, if_false]
    by_cases h2 : N / 2 = 0
    · have h1 : N = 1 := by omega
      subst h1
      rw [npwrLoop]
      simp
    · have hlt : N / 2 < N := Nat.div_lt_self (by omega) (by norm_num)
      have h1 : 1 ≤ N / 2 := Nat.pos_of_ne_zero h2
      simp only [Nat.pos_of_ne_zero h2, if_pos, sqr_nan]
      exact ih (N / 2) hlt h1 _

theorem npwr_nan (n : ℤ) (hn : n ≠ 0) : npwr dd_real._nan n = dd_real._nan := by
  unfold npwr
  simp only [hn, if_false]
  have habs : 1 ≤ n.natAbs := by
    have := Int.natAbs_pos.mpr hn; omega
  by_cases h1 : 1 < n.natAbs
  · rw [if_pos h1, npwrLoop_nan n.natAbs habs]
    by_cases hneg : n < 0 <;> simp [hneg, dDivDD, dd_real.ofD]
  · rw [if_neg h1]
    by_cases hneg : n < 0 <;> simp [hneg, dDivDD, dd_real.ofD]

theorem nroot_nan (n : ℤ) : (nroot dd_real._nan n).is_nanb = true := by
  unfold nroot
  by_cases h0 : n ≤ 0
  · simp [h0]
  by_cases h1 : n = 1
  · simp [h0, h1]
  by_cases h2 : n = 2
  · simp [h0, h1, h2]
  · simp only [h0, h1, h2, if_false, dd_real.is_zero_nan, Bool.false_eq_true,
      dd_real.is_negative, ddAbs_nan]
    rw [show (dd_real._nan).x0 = .nan from rfl]
    simp only [qd_log, qd_exp, dd_real.ofD, dDivDD, Fp.nan_div, Fp.neg_nan,
      ddMul_nan_left, dSubDD_nan_right, ddMul_nan_right, ddMul_nanLead_right,
      ddDivD_nan_left, ddAdd_nan_right, ddDiv_nan_right, Bool.and_false,
      Fp.nan_lt, Bool.false_eq_true, if_false]
    rfl

theorem ddSincos_nanLead : ddSincos ⟨.nan, .fin 0⟩ = some (dd_real._nan, dd_real._nan) := by
  decide

theorem ddAtan2_nan_y (x : dd_real) (hx : x.is_zero = false) :
    ddAtan2 dd_real._nan x = some dd_real._nan := by
  unfold ddAtan2
  simp only [hx, Bool.false_eq_true, if_false, dd_real.is_zero_nan, ddEq_nan_right,
    ddNeg_nan, sqr_nan, ddAdd_nan_right, ddSqrt_nan, ddDiv_nan_right, ddDiv_nan_left]
  rw [show toD dd_real._nan = .nan from rfl]
  simp only [qd_atan2_nan_left]
  rw [show (dd_real._nan).x0 = .nan from rfl]
  simp only [Fp.abs_nan, Fp.lt_nan, Bool.false_eq_true, if_false, dd_real.ofD,
    ddSincos_nanLead, Option.map_some]
  simp

theorem ddAtan2_nan_x (y : dd_real) (hy : y.is_zero = false) :
    ddAtan2 y dd_real._nan = some dd_real._nan := by
  unfold ddAtan2
  simp only [hy, Bool.false_eq_true, if_false, dd_real.is_zero_nan, ddEq_nan_left,
    sqr_nan, ddAdd_nan_left, ddSqrt_nan, ddDiv_nan_right, ddDiv_nan_left]
  rw [show toD dd_real._nan = .nan from rfl]
  simp only [qd_atan2_nan_right]
  rw [show (dd_real._nan).x0 = .nan from rfl]
  simp only [Fp.abs_nan, Fp.lt_nan, Bool.false_eq_true, if_false, dd_real.ofD,
    ddSincos_nanLead, Option.map_some]
  simp

/-! ### Termination of the bounded loops -/

theorem expLoop_isSome (fuel : ℕ) :
    ∀ (i : ℕ), i ≤ 4 → 5 ≤ i + fuel → ∀ (r s p t : dd_real),
      (expLoop r fuel i s p t).isSome = true := by
  induction fuel with
  | zero => intro i h1 h2; omega
  | succ f ih =>
    intro i h1 h2 r s p t
    rw [expLoop]
    split
    · next h =>
      exact ih (i + 1) (by omega) (by omega) r _ _ _
    · rfl

theorem taylorLoop_isSome (fuel : ℕ) :
    ∀ (i : ℕ), i ≤ 14 → 15 ≤ i + 2 * fuel → ∀ (x : dd_real) (thresh : Fp) (r s : dd_real),
      (taylorLoop x thresh fuel i r s).isSome = true := by
  induction fuel with
  | zero => intro i h1 h2; omega
  | succ f ih =>
    intro i h1 h2 x thresh r s
    rw [taylorLoop]
    split
    · next h =>
      exact ih (i + 2) (by omega) (by omega) x thresh _ _
    · rfl

theorem ddExp_isSome (a : dd_real) : (ddExp a).isSome = true := by
  unfold ddExp
  split
  · rfl
  split
  · rfl
  split
  · rfl
  split
  · rfl
  simp only [Option.isSome_map']
  exact expLoop_isSome 5 0 (by omega) (by omega) _ _ _ _

theorem sin_taylor_isSome (a : dd_real) : (sin_taylor a).isSome = true := by
  unfold sin_taylor
  split
  · rfl
  exact taylorLoop_isSome 8 0 (by omega) (by omega) _ _ _ _

theorem cos_taylor_isSome (a : dd_real) : (cos_taylor a).isSome = true := by
  unfold cos_taylor
  split
  · rfl
  exact taylorLoop_isSome 8 1 (by omega) (by omega) _ _ _ _

theorem ddLog_isSome (a : dd_real) : (ddLog a).isSome = true := by
  unfold ddLog
  split
  · rfl
  split
  · rfl
  simp only [Option.isSome_map']
  exact ddExp_isSome _

theorem ddExp_nanDD : ddExp dd_real._nan = some dd_real._nan := by
  with_unfolding_all decide

theorem ddLog_nanDD : ddLog dd_real._nan = some dd_real._nan := by
  with_unfolding_all decide

theorem ddPow_nan_left (b : dd_real) : ddPow dd_real._nan b = some dd_real._nan := by
  unfold ddPow
  rw [ddLog_nanDD, Option.some_bind, ddMul_nan_right, ddExp_nanDD]

theorem ddPow_nan_right (a : dd_real) : ddPow a dd_real._nan = some dd_real._nan := by
  unfold ddPow
  obtain ⟨l, hl⟩ := Option.isSome_iff_exists.mp (ddLog_isSome a)
  rw [hl, Option.some_bind, ddMul_nan_left, ddExp_nanDD]

theorem ddLdexp_nan (n : ℤ) : ddLdexp dd_real._nan n = dd_real._nan := by
  simp [ddLdexp, dd_real._nan]

theorem mul_pwr2_nan (b : Fp) : mul_pwr2 dd_real._nan b = dd_real._nan := by
  simp [mul_pwr2, dd_real._nan]

/-! ### Exact-arithmetic collapse of the error-free transforms

On finite inputs the model's arithmetic is exact, so the error limbs of the
transforms vanish; these lemmas drive the sinh-loop termination proof. -/

theorem qd.two_sum_fin (x y : ℚ) :
    qd.two_sum (.fin x) (.fin y) = (.fin (x + y), .fin 0) := by
  unfold qd.two_sum
  simp only [Fp.add, Fp.sub, Fp.neg, Prod.mk.injEq, Fp.fin.injEq]
  constructor
  · trivial
  · ring

theorem qd.two_diff_fin (x y : ℚ) :
    qd.two_diff (.fin x) (.fin y) = (.fin (x - y), .fin 0) := by
  unfold qd.two_diff
  simp only [Fp.add, Fp.sub, Fp.neg, Prod.mk.injEq, Fp.fin.injEq]
  constructor
  · ring
  · ring

theorem qd.quick_two_sum_fin (x y : ℚ) :
    qd.quick_two_sum (.fin x) (.fin y) = (.fin (x + y), .fin 0) := by
  unfold qd.quick_two_sum
  simp only [Fp.add, Fp.sub, Fp.neg, Prod.mk.injEq, Fp.fin.injEq]
  constructor
  · trivial
  · ring

theorem qd.split_fin (x : ℚ) : qd.split (.fin x) = (.fin x, .fin 0) := by
  have hc : ((mkRat 37252902984619140625 (10 ^ 28)) * 268435456 : ℚ) = 1 := by
    rw [Rat.mkRat_eq_div]; norm_num
  unfold qd.split qd._QD_SPLITTER
  split
  · simp only [Fp.mul, Fp.sub, Fp.neg, Fp.add, Prod.mk.injEq, Fp.fin.injEq]
    constructor
    · linear_combination x * hc
    · ring
  · simp only [Fp.mul, Fp.sub, Fp.neg, Fp.add, Prod.mk.injEq, Fp.fin.injEq]
    constructor
    · ring
    · ring

theorem qd.two_prod_fin (x y : ℚ) :
    qd.two_prod (.fin x) (.fin y) = (.fin (x * y), .fin 0) := by
  unfold qd.two_prod
  rw [qd.split_fin, qd.split_fin]
  simp only [Fp.mul, Fp.sub, Fp.neg, Fp.add, Prod.mk.injEq, Fp.fin.injEq]
  constructor
  · trivial
  · ring

theorem qd.two_sqr_fin (x : ℚ) :
    qd.two_sqr (.fin x) = (.fin (x * x), .fin 0) := by
  unfold qd.two_sqr
  rw [qd.split_fin]
  simp only [Fp.mul, Fp.sub, Fp.neg, Fp.add, Prod.mk.injEq, Fp.fin.injEq]
  constructor
  · trivial
  · ring

theorem sqr_fin (x0 x1 : ℚ) :
    sqr ⟨.fin x0, .fin x1⟩ = ⟨.fin ((x0 + x1) ^ 2), .fin 0⟩ := by
  unfold sqr
  rw [qd.two_sqr_fin]
  simp only [Fp.mul, Fp.add]
  rw [qd.quick_two_sum_fin]
  simp only [dd_real.mk.injEq, Fp.fin.injEq]
  constructor
  · ring
  · trivial

theorem ddMul_fin_lowzero (a0 a1 u : ℚ) :
    ddMul ⟨.fin a0, .fin a1⟩ ⟨.fin u, .fin 0⟩ = ⟨.fin ((a0 + a1) * u), .fin 0⟩ := by
  unfold ddMul
  rw [qd.two_prod_fin]
  simp only [Fp.mul, Fp.add]
  rw [qd.quick_two_sum_fin]
  simp only [dd_real.mk.injEq, Fp.fin.injEq]
  constructor
  · ring
  · trivial

theorem ddDivD_fin (w d : ℚ) (hd : d ≠ 0) :
    ddDivD ⟨.fin w, .fin 0⟩ (.fin d) = ⟨.fin (w / d), .fin 0⟩ := by
  unfold ddDivD
  simp only [Fp.div, hd, if_false]
  rw [qd.two_prod_fin]
  rw [show w / d * d = w from by field_simp]
  rw [qd.two_diff_fin]
  simp only [Fp.add, Fp.sub, Fp.neg, Fp.div]
  rw [show w - w = 0 from by ring, show (0 : ℚ) + 0 + -0 = 0 from by ring,
    show (0 : ℚ) + 0 = 0 from by ring]
  simp only [hd, if_false]
  rw [show (0 : ℚ) / d = 0 from by ring]
  rw [qd.quick_two_sum_fin]
  simp only [dd_real.mk.injEq, Fp.fin.injEq]
  constructor
  · ring
  · trivial

theorem ddAbs_fin (w : ℚ) : ddAbs ⟨.fin w, .fin 0⟩ = ⟨.fin |w|, .fin 0⟩ := by
  unfold ddAbs
  split
  · next h =>
    simp only [Fp.lt, decide_eq_true_eq] at h
    simp only [ddNeg, Fp.neg, dd_real.mk.injEq, Fp.fin.injEq]
    exact ⟨(abs_of_neg h).symm, neg_zero⟩
  · next h =>
    simp only [Fp.lt, decide_eq_true_eq, not_lt] at h
    simp only [dd_real.mk.injEq, Fp.fin.injEq]
    exact ⟨(abs_of_nonneg h).symm, trivial⟩

theorem ddGtD_fin (w c : ℚ) :
    ddGtD ⟨.fin w, .fin 0⟩ (.fin c) = decide (c < w) := by
  unfold ddGtD
  simp [Fp.lt, Fp.feq]

/-- Termination of sinh's small-argument loop: with the squared reduced
argument bounded by `1/361` and the divisor `(m-1)*m` at least 6, the term
contracts by a factor of at least 2166 per iteration, and
`2*(1/2166)^10 <= _eps`, so the exit test `|t| <= |q0|*_eps` fires within
the structural bound. -/
theorem sinhLoop_isSome (u thq q0 : ℚ) (hu : |u| ≤ 1 / 361)
    (hth : thq = |q0| * mkRat 493038065763132 (10 ^ 46)) (hq0 : q0 ≠ 0) :
    ∀ fuel k : ℕ, ∀ mq w0 w1 : ℚ, ∀ s : dd_real,
      1 ≤ fuel → 11 ≤ fuel + k → 1 ≤ mq →
      |w0 + w1| ≤ 2 * |q0| * (1 / 2166) ^ k →
      (sinhLoop ⟨.fin u, .fin 0⟩ (.fin thq) fuel (.fin mq) ⟨.fin w0, .fin w1⟩ s).isSome
        = true := by
  intro fuel
  induction fuel with
  | zero => intro k mq w0 w1 s h1 _ _ _; omega
  | succ f ih =>
    intro k mq w0 w1 s _ h2 hm hw
    rw [sinhLoop]
    simp only [Fp.add, Fp.sub, Fp.neg, Fp.mul]
    rw [ddMul_fin_lowzero]
    have hDpos : (0 : ℚ) < (mq + 2 + -1) * (mq + 2) := by nlinarith
    have hD6 : (6 : ℚ) ≤ (mq + 2 + -1) * (mq + 2) := by nlinarith
    rw [ddDivD_fin _ _ (ne_of_gt hDpos)]
    rw [ddAbs_fin, ddGtD_fin]
    have hw' : |(w0 + w1) * u / ((mq + 2 + -1) * (mq + 2))| ≤
        2 * |q0| * (1 / 2166) ^ (k + 1) := by
      rw [abs_div, abs_mul, abs_of_pos hDpos]
      have hnum : |w0 + w1| * |u| ≤ (2 * |q0| * (1 / 2166) ^ k) * (1 / 361) :=
        mul_le_mul hw hu (abs_nonneg _) (by positivity)
      calc |w0 + w1| * |u| / ((mq + 2 + -1) * (mq + 2)) ≤
          (2 * |q0| * (1 / 2166) ^ k) * (1 / 361) / 6 :=
            div_le_div₀ (by positivity) hnum (by norm_num) hD6
        _ = 2 * |q0| * (1 / 2166) ^ (k + 1) := by ring
    split
    · next hcond =>
      have hlt : thq < |(w0 + w1) * u / ((mq + 2 + -1) * (mq + 2))| :=
        of_decide_eq_true hcond
      have hk8 : k ≤ 8 := by
        by_contra hk
        push_neg at hk
        have hmono : ((1 : ℚ) / 2166) ^ (k + 1) ≤ (1 / 2166) ^ 10 :=
          pow_le_pow_of_le_one (by norm_num) (by norm_num) (by omega)
        have heps : 2 * ((1 : ℚ) / 2166) ^ 10 ≤ mkRat 493038065763132 (10 ^ 46) := by
          rw [Rat.mkRat_eq_div]; norm_num
        have hbig : |(w0 + w1) * u / ((mq + 2 + -1) * (mq + 2))| ≤
            |q0| * mkRat 493038065763132 (10 ^ 46) := by
          calc |(w0 + w1) * u / ((mq + 2 + -1) * (mq + 2))| ≤
              2 * |q0| * (1 / 2166) ^ (k + 1) := hw'
            _ ≤ 2 * |q0| * (1 / 2166) ^ 10 := by
                have := abs_nonneg q0
                nlinarith
            _ = |q0| * (2 * (1 / 2166) ^ 10) := by ring
            _ ≤ |q0| * mkRat 493038065763132 (10 ^ 46) := by
                have := abs_nonneg q0
                nlinarith
        rw [hth] at hlt
        linarith
      exact ih (k + 1) (mq + 2) _ 0 _ (by omega) (by omega) (by linarith)
        (by rw [add_zero]; exact hw')
    · rfl

/-- sinh's small-argument loop terminates for every normal-form input in
its stated range `|a| <= 0.05`: the trailing limb bound `|q1| <=
|q0|/2^52` is the normal-form non-overlap condition. -/
theorem ddSinh_isSome_small (q0 q1 : ℚ) (h0 : |q0| ≤ 1 / 20)
    (h1 : |q1| ≤ |q0| / 4503599627370496) :
    (ddSinh ⟨.fin q0, .fin q1⟩).isSome = true := by
  unfold ddSinh
  split
  · rfl
  next hz =>
    split
    · simp only [Option.isSome_map']
      exact ddExp_isSome _
    next hgt =>
      have hq0 : q0 ≠ 0 := by
        intro h
        exact hz (by simp [dd_real.is_zero, Fp.feq, h])
      simp only [sqr_fin]
      rw [show toD ⟨.fin q0, .fin q1⟩ = .fin q0 from rfl]
      rw [show dd_real._eps = .fin (mkRat 493038065763132 (10 ^ 46)) from rfl]
      simp only [Fp.mul, Fp.abs]
      rw [show |q0 * mkRat 493038065763132 (10 ^ 46)| =
          |q0| * mkRat 493038065763132 (10 ^ 46) from by
        rw [abs_mul, abs_of_pos (show (0 : ℚ) < mkRat 493038065763132 (10 ^ 46) from by
          rw [Rat.mkRat_eq_div]; norm_num)]]
      have habs1 : |q0 + q1| ≤ 1 / 19 := by
        have hq1 : |q1| ≤ (1 / 20) / 4503599627370496 := by
          refine le_trans h1 ?_
          gcongr
        calc |q0 + q1| ≤ |q0| + |q1| := abs_add _ _
          _ ≤ 1 / 20 + (1 / 20) / 4503599627370496 := by linarith
          _ ≤ 1 / 19 := by norm_num
      have hu : |(q0 + q1) ^ 2| ≤ 1 / 361 := by
        rw [abs_pow]
        calc |q0 + q1| ^ 2 ≤ (1 / 19) ^ 2 :=
          pow_le_pow_left₀ (abs_nonneg _) habs1 2
          _ = 1 / 361 := by norm_num
      apply sinhLoop_isSome ((q0 + q1) ^ 2) _ q0 hu rfl hq0 12 0 1 q0 q1 _
        (by omega) (by omega) le_rfl
      rw [pow_zero, mul_one]
      calc |q0 + q1| ≤ |q0| + |q1| := abs_add _ _
        _ ≤ |q0| + |q0| / 4503599627370496 := by linarith
        _ ≤ 2 * |q0| := by
            have := abs_nonneg q0
            linarith

/-! ### Helper facts about the scalar and double-double comparisons -/

theorem Fp.feq_symm (a b : Fp) : Fp.feq a b = Fp.feq b a := by
  cases a <;> cases b <;> simp [Fp.feq, eq_comm, Bool.beq_comm]

theorem is_positive_not_zero (y : dd_real) (h : y.is_positive = true) :
    y.is_zero = false := by
  unfold dd_real.is_positive at h
  unfold dd_real.is_zero
  cases hy : y.x0 with
  | fin q =>
    rw [hy] at h
    simp only [Fp.lt, decide_eq_true_eq] at h
    simp only [Fp.feq, decide_eq_false_iff_not]
    exact fun hq => by rw [hq] at h; exact lt_irrefl 0 h
  | inf s => simp [Fp.feq]
  | nan => simp [Fp.feq]

theorem is_negative_not_zero (y : dd_real) (h : y.is_negative = true) :
    y.is_zero = false := by
  unfold dd_real.is_negative at h
  unfold dd_real.is_zero
  cases hy : y.x0 with
  | fin q =>
    rw [hy] at h
    simp only [Fp.lt, decide_eq_true_eq] at h
    simp only [Fp.feq, decide_eq_false_iff_not]
    exact fun hq => by rw [hq] at h; exact lt_irrefl 0 h
  | inf s => simp [Fp.feq]
  | nan => simp [Fp.feq]

theorem is_negative_not_positive (x : dd_real) (h : x.is_negative = true) :
    x.is_positive = false := by
  unfold dd_real.is_negative at h
  unfold dd_real.is_positive
  cases hx : x.x0 with
  | fin q =>
    rw [hx] at h
    simp only [Fp.lt, decide_eq_true_eq] at h
    simp only [Fp.lt, decide_eq_false_iff_not]
    exact fun hq => absurd (lt_trans h hq) (lt_irrefl q)
  | inf s =>
    rw [hx] at h
    simp only [Fp.lt] at h ⊢
    simp [h]
  | nan => simp [Fp.lt]

theorem ddEq_is_zero_eq (x y : dd_real) (h : ddEq x y = true) :
    x.is_zero = y.is_zero := by
  unfold ddEq at h
  simp only [Bool.and_eq_true] at h
  obtain ⟨h0, -⟩ := h
  unfold dd_real.is_zero
  cases hx : x.x0 <;> cases hy : y.x0 <;> rw [hx, hy] at h0 <;>
    simp_all [Fp.feq]

theorem ddEq_neg_facts (y x : dd_real) (h : ddEq x (ddNeg y) = true)
    (hy : y.is_zero = false) : ddEq x y = false ∧ x.is_zero = false := by
  unfold ddEq ddNeg at h
  simp only [Bool.and_eq_true] at h
  obtain ⟨h0, -⟩ := h
  unfold dd_real.is_zero at hy
  unfold ddEq dd_real.is_zero
  cases hyy : y.x0 with
  | fin b =>
    rw [hyy] at h0 hy
    simp only [Fp.feq, decide_eq_false_iff_not] at hy
    cases hx : x.x0 with
    | fin c =>
      rw [hx] at h0
      simp only [Fp.neg, Fp.feq, decide_eq_true_eq] at h0
      have hb : c ≠ b := by
        intro hcb
        rw [hcb] at h0
        exact hy (by linarith)
      have hc0 : c ≠ 0 := by
        intro hc
        rw [hc] at h0
        exact hy (by linarith)
      constructor
      · rw [show Fp.feq (.fin c) (.fin b) = false from by
          simp only [Fp.feq, decide_eq_false_iff_not]; exact hb]
        rw [Bool.false_and]
      · simp only [Fp.feq, decide_eq_false_iff_not]
        exact hc0
    | inf s =>
      rw [hx] at h0
      simp [Fp.neg, Fp.feq] at h0
    | nan =>
      rw [hx] at h0
      simp [Fp.neg, Fp.feq] at h0
  | inf s =>
    rw [hyy] at h0
    cases hx : x.x0 with
    | fin c =>
      rw [hx] at h0
      simp [Fp.neg, Fp.feq] at h0
    | inf t =>
      rw [hx] at h0
      simp only [Fp.neg, Fp.feq] at h0
      have ht : t = !s := by simpa using h0
      subst ht
      constructor
      · rw [show Fp.feq (Fp.inf !s) (Fp.inf s) = false from by
          cases s <;> simp [Fp.feq]]
        rw [Bool.false_and]
      · simp [Fp.feq]
    | nan =>
      rw [hx] at h0
      simp [Fp.neg, Fp.feq] at h0
  | nan =>
    rw [hyy] at h0
    simp only [Fp.neg] at h0
    rw [Fp.feq_nan] at h0
    exact absurd h0 (by simp)

theorem Fp.le_fin_elim (x : Fp) (c : ℚ) (h : Fp.le x (.fin c) = true) :
    (∃ q : ℚ, x = .fin q ∧ q ≤ c) ∨ x = .inf true := by
  cases x with
  | fin q =>
    refine Or.inl ⟨q, rfl, ?_⟩
    simp only [Fp.le, Fp.lt, Fp.feq, Bool.or_eq_true, decide_eq_true_eq] at h
    rcases h with h | h
    · exact le_of_lt h
    · exact le_of_eq h
  | inf s =>
    cases s with
    | true => exact Or.inr rfl
    | false => simp [Fp.le, Fp.lt, Fp.feq] at h
  | nan => simp [Fp.le] at h

theorem Fp.fin_le_elim (c : ℚ) (x : Fp) (h : Fp.le (.fin c) x = true) :
    (∃ q : ℚ, x = .fin q ∧ c ≤ q) ∨ x = .inf false := by
  cases x with
  | fin q =>
    refine Or.inl ⟨q, rfl, ?_⟩
    simp only [Fp.le, Fp.lt, Fp.feq, Bool.or_eq_true, decide_eq_true_eq] at h
    rcases h with h | h
    · exact le_of_lt h
    · exact le_of_eq h
  | inf s =>
    cases s with
    | false => exact Or.inr rfl
    | true => simp [Fp.le, Fp.lt, Fp.feq] at h
  | nan => simp [Fp.le] at h

theorem ddLeD_le (a : dd_real) (c : ℚ) (h : ddLeD a (.fin c) = true) :
    Fp.le a.x0 (.fin c) = true := by
  unfold ddLeD at h
  unfold Fp.le
  simp only [Bool.or_eq_true, Bool.and_eq_true] at h ⊢
  rcases h with h | ⟨h, -⟩
  · exact Or.inl h
  · exact Or.inr h

theorem ddGeD_le (a : dd_real) (c : ℚ) (h : ddGeD a (.fin c) = true) :
    Fp.le (.fin c) a.x0 = true := by
  unfold ddGeD at h
  unfold Fp.le
  simp only [Bool.or_eq_true, Bool.and_eq_true] at h ⊢
  rcases h with h | ⟨h, -⟩
  · exact Or.inl h
  · right
    rw [Fp.feq_symm]
    exact h

theorem le_zero_not_one (a : dd_real) (h : Fp.le a.x0 (.fin 0) = true) :
    a.is_one = false := by
  unfold dd_real.is_one
  rcases Fp.le_fin_elim a.x0 0 h with ⟨q, hq, hle⟩ | hq <;> rw [hq]
  · rw [show Fp.feq (.fin q) (.fin 1) = false from by
      simp only [Fp.feq, decide_eq_false_iff_not]; intro h1; rw [h1] at hle; norm_num at hle]
    rw [Bool.false_and]
  · rw [show Fp.feq (.inf true) (.fin 1) = false from rfl, Bool.false_and]

/-! ### Claim theorems -/

/-- C4: every domain violation — sqrt of a negative argument, log of a
non-positive argument, npwr with n = 0 and a = 0, nroot with n <= 0 or an
even n on a negative argument, asin/acos of |a| > 1, acosh of a < 1, atanh
of |a| >= 1, atan2(0,0), and an exceeded trig reduction range in the
sin/cos dispatch — goes through the error hook (a no-op, `dd_error`) and
returns the canonical NaN expansion; the embedding is total, so no
exception and no error code exist.  The last two pairs of conjuncts state
the reduction-failure branches of the sin/cos dispatchers, which `ddSin`
and `ddCos` invoke on the computed reduction multipliers. -/
theorem C4_domain_errors_nan :
    (∀ msg : String, dd_error msg = ()) ∧
    (∀ a : dd_real, a.is_negative = true → ddSqrt a = dd_real._nan) ∧
    (∀ a : dd_real, Fp.le a.x0 (.fin 0) = true → ddLog a = some dd_real._nan) ∧
    (∀ a : dd_real, a.is_zero = true → npwr a 0 = dd_real._nan) ∧
    (∀ (a : dd_real) (n : ℤ), n ≤ 0 → nroot a n = dd_real._nan) ∧
    (∀ (a : dd_real) (n : ℤ), 0 < n → n % 2 = 0 → a.is_negative = true →
      nroot a n = dd_real._nan) ∧
    (∀ a : dd_real, ddGtD (ddAbs a) (.fin 1) = true → ddAsin a = some dd_real._nan) ∧
    (∀ a : dd_real, ddGtD (ddAbs a) (.fin 1) = true → ddAcos a = some dd_real._nan) ∧
    (∀ a : dd_real, ddLtD a (.fin 1) = true → ddAcosh a = some dd_real._nan) ∧
    (∀ a : dd_real, ddGeD (ddAbs a) (.fin 1) = true → ddAtanh a = some dd_real._nan) ∧
    (∀ y x : dd_real, x.is_zero = true → y.is_zero = true →
      ddAtan2 y x = some dd_real._nan) ∧
    (∀ (j k : ℤ) (t : dd_real), j < -2 ∨ 2 < j → sinDispatch j k t = some dd_real._nan) ∧
    (∀ (j k : ℤ) (t : dd_real), 4 < k.natAbs → sinDispatch j k t = some dd_real._nan) ∧
    (∀ (j k : ℤ) (t : dd_real), j < -2 ∨ 2 < j → cosDispatch j k t = some dd_real._nan) ∧
    (∀ (j k : ℤ) (t : dd_real), 4 < k.natAbs → cosDispatch j k t = some dd_real._nan) ∧
    (∀ a : dd_real, a.is_zero = false →
      ddSin a = sinDispatch (sinReduce a).1 (sinReduce a).2.1 (sinReduce a).2.2) ∧
    (∀ a : dd_real, a.is_zero = false →
      ddCos a = cosDispatch (cosReduce a).1 (cosReduce a).2.1 (cosReduce a).2.2) := by
  refine ⟨fun _ => rfl, ?_, ?_, ?_, ?_, ?_, ?_, ?_, ?_, ?_, ?_, ?_, ?_, ?_, ?_, ?_, ?_⟩
  · intro a h
    unfold ddSqrt
    rw [is_negative_not_zero a h]
    simp [h]
  · intro a h
    unfold ddLog
    rw [le_zero_not_one a h]
    simp [h]
  · intro a h
    unfold npwr
    simp [h]
  · intro a n hn
    unfold nroot
    simp [hn]
  · intro a n hn hmod h
    unfold nroot
    rw [if_neg (by omega)]
    simp [hmod, h]
  · intro a h
    unfold ddAsin
    simp [h]
  · intro a h
    unfold ddAcos
    simp [h]
  · intro a h
    unfold ddAcosh
    simp [h]
  · intro a h
    unfold ddAtanh
    simp [h]
  · intro y x hx hy
    unfold ddAtan2
    simp [hx, hy]
  · intro j k t h
    unfold sinDispatch
    rw [if_pos (by omega)]
  · intro j k t h
    unfold sinDispatch
    by_cases hj : j < -2 ∨ 2 < j
    · rw [if_pos (by omega)]
    · rw [if_neg hj, if_pos h]
  · intro j k t h
    unfold cosDispatch
    rw [if_pos (by omega)]
  · intro j k t h
    unfold cosDispatch
    by_cases hj : j < -2 ∨ 2 < j
    · rw [if_pos (by omega)]
    · rw [if_neg hj, if_pos h]
  · intro a h
    unfold ddSin
    simp [h]
  · intro a h
    unfold ddCos
    simp [h]

/-- Witness for C4 at concrete inputs: sqrt(-1), log(0), npwr(0,0),
nroot(·,0), nroot(-2,4), asin(2), acos(2), acosh(0), atanh(1),
atan2(0,0), and out-of-range reduction multipliers. -/
theorem C4_domain_errors_nan_witness :
    ddSqrt (dd_real.ofD (.fin (-1))) = dd_real._nan ∧
    ddLog (dd_real.ofD (.fin 0)) = some dd_real._nan ∧
    npwr (dd_real.ofD (.fin 0)) 0 = dd_real._nan ∧
    nroot (dd_real.ofD (.fin 1)) 0 = dd_real._nan ∧
    nroot (dd_real.ofD (.fin (-2))) 4 = dd_real._nan ∧
    ddAsin (dd_real.ofD (.fin 2)) = some dd_real._nan ∧
    ddAcos (dd_real.ofD (.fin 2)) = some dd_real._nan ∧
    ddAcosh (dd_real.ofD (.fin 0)) = some dd_real._nan ∧
    ddAtanh (dd_real.ofD (.fin 1)) = some dd_real._nan ∧
    ddAtan2 (dd_real.ofD (.fin 0)) (dd_real.ofD (.fin 0)) = some dd_real._nan ∧
    sinDispatch 3 0 (dd_real.ofD (.fin 0)) = some dd_real._nan ∧
    sinDispatch 0 5 (dd_real.ofD (.fin 0)) = some dd_real._nan ∧
    cosDispatch 3 0 (dd_real.ofD (.fin 0)) = some dd_real._nan ∧
    cosDispatch 0 5 (dd_real.ofD (.fin 0)) = some dd_real._nan ∧
    ddSin (dd_real.ofD (.fin 1)) = sinDispatch (sinReduce (dd_real.ofD (.fin 1))).1
      (sinReduce (dd_real.ofD (.fin 1))).2.1 (sinReduce (dd_real.ofD (.fin 1))).2.2 :=
  ⟨C4_domain_errors_nan.2.1 _ (by decide),
   C4_domain_errors_nan.2.2.1 _ (by decide),
   C4_domain_errors_nan.2.2.2.1 _ (by decide),
   C4_domain_errors_nan.2.2.2.2.1 _ 0 (by omega),
   C4_domain_errors_nan.2.2.2.2.2.1 _ 4 (by omega) (by decide) (by decide),
   C4_domain_errors_nan.2.2.2.2.2.2.1 _ (by decide),
   C4_domain_errors_nan.2.2.2.2.2.2.2.1 _ (by decide),
   C4_domain_errors_nan.2.2.2.2.2.2.2.2.1 _ (by decide),
   C4_domain_errors_nan.2.2.2.2.2.2.2.2.2.1 _ (by decide),
   C4_domain_errors_nan.2.2.2.2.2.2.2.2.2.2.1 _ _ (by decide) (by decide),
   C4_domain_errors_nan.2.2.2.2.2.2.2.2.2.2.2.1 3 0 _ (by omega),
   C4_domain_errors_nan.2.2.2.2.2.2.2.2.2.2.2.2.1 0 5 _ (by decide),
   C4_domain_errors_nan.2.2.2.2.2.2.2.2.2.2.2.2.2.1 3 0 _ (by omega),
   C4_domain_errors_nan.2.2.2.2.2.2.2.2.2.2.2.2.2.2.1 0 5 _ (by decide),
   C4_domain_errors_nan.2.2.2.2.2.2.2.2.2.2.2.2.2.2.2.1 _ (by decide)⟩


/-- C5 counterexample: two kernel operations do not propagate a canonical
NaN argument.  `npwr(NaN, 0)` returns 1 because the `n == 0` branch tests
`is_zero` (false on NaN, since `NaN == 0.0` is false) and returns 1 before
looking further; `atan2(NaN, 0)` takes the `x == 0` axis branch and
returns `-pi/2` because `is_positive(NaN)` is false. -/
theorem C5_counterexample :
    npwr dd_real._nan 0 = dd_real.ofD (.fin 1) ∧
    (dd_real.ofD (.fin 1)).is_nanb = false ∧
    ddAtan2 dd_real._nan (dd_real.ofD (.fin 0)) = some (ddNeg dd_real._pi2) ∧
    (ddNeg dd_real._pi2).is_nanb = false := by
  refine ⟨?_, rfl, ?_, rfl⟩
  · unfold npwr
    simp
  · unfold ddAtan2
    rw [show (dd_real.ofD (.fin 0)).is_zero = true from by
      simp [dd_real.ofD, dd_real.is_zero, Fp.feq]]
    rw [dd_real.is_zero_nan]
    rw [show (dd_real._nan).is_positive = false from by
      simp [dd_real.is_positive]; rfl]
    simp

/-- C5 (amended): for every kernel operation, if any dd_real argument is
the canonical NaN expansion the result is NaN — except `npwr` with
exponent 0 (which returns 1) and `atan2` when its other argument is zero
(which takes the axis special-case branch).  Binary operations are stated
with the other operand arbitrary; the mixed double-double/double overloads
with the dd_real operand NaN are included; the tail conjunct covers every
unary and paired kernel operation on the canonical NaN. -/
theorem C5_nan_propagation :
    (∀ b : dd_real,
      (ddAdd dd_real._nan b).is_nanb = true ∧ (ddAdd b dd_real._nan).is_nanb = true ∧
      (ddSub dd_real._nan b).is_nanb = true ∧ (ddSub b dd_real._nan).is_nanb = true ∧
      (ddMul dd_real._nan b).is_nanb = true ∧ (ddMul b dd_real._nan).is_nanb = true ∧
      (ddDiv dd_real._nan b).is_nanb = true ∧ (ddDiv b dd_real._nan).is_nanb = true ∧
      (ddFmod dd_real._nan b).is_nanb = true ∧ (ddFmod b dd_real._nan).is_nanb = true ∧
      (ddDrem dd_real._nan b).is_nanb = true ∧ (ddDrem b dd_real._nan).is_nanb = true ∧
      (ddDivrem dd_real._nan b).1.is_nanb = true ∧
      (ddDivrem dd_real._nan b).2.is_nanb = true ∧
      (ddDivrem b dd_real._nan).1.is_nanb = true ∧
      (ddDivrem b dd_real._nan).2.is_nanb = true ∧
      isNaNopt (ddPow dd_real._nan b) = true ∧ isNaNopt (ddPow b dd_real._nan) = true) ∧
    (∀ d : Fp,
      (ddAddD dd_real._nan d).is_nanb = true ∧ (dAddDD d dd_real._nan).is_nanb = true ∧
      (ddSubD dd_real._nan d).is_nanb = true ∧ (dSubDD d dd_real._nan).is_nanb = true ∧
      (ddMulD dd_real._nan d).is_nanb = true ∧ (dMulDD d dd_real._nan).is_nanb = true ∧
      (ddDivD dd_real._nan d).is_nanb = true ∧ (dDivDD d dd_real._nan).is_nanb = true ∧
      (mul_pwr2 dd_real._nan d).is_nanb = true) ∧
    (∀ n : ℤ, n ≠ 0 → (npwr dd_real._nan n).is_nanb = true) ∧
    (∀ n : ℤ, (nroot dd_real._nan n).is_nanb = true) ∧
    (∀ n : ℤ, (ddLdexp dd_real._nan n).is_nanb = true) ∧
    (∀ x : dd_real, x.is_zero = false → isNaNopt (ddAtan2 dd_real._nan x) = true) ∧
    (∀ y : dd_real, y.is_zero = false → isNaNopt (ddAtan2 y dd_real._nan) = true) ∧
    ((c_dd_neg dd_real._nan).is_nanb = true ∧
     (ddNeg dd_real._nan).is_nanb = true ∧
     (ddAbs dd_real._nan).is_nanb = true ∧
     (sqr dd_real._nan).is_nanb = true ∧
     (inv dd_real._nan).is_nanb = true ∧
     (ddSqrt dd_real._nan).is_nanb = true ∧
     (ddNint dd_real._nan).is_nanb = true ∧
     (ddAint dd_real._nan).is_nanb = true ∧
     (ddFloor dd_real._nan).is_nanb = true ∧
     (ddCeil dd_real._nan).is_nanb = true ∧
     isNaNopt (ddExp dd_real._nan) = true ∧
     isNaNopt (ddLog dd_real._nan) = true ∧
     isNaNopt (ddLog10 dd_real._nan) = true ∧
     isNaNopt (ddSin dd_real._nan) = true ∧
     isNaNopt (ddCos dd_real._nan) = true ∧
     isNaNopt (ddTan dd_real._nan) = true ∧
     isNaNopt (ddAsin dd_real._nan) = true ∧
     isNaNopt (ddAcos dd_real._nan) = true ∧
     isNaNopt (ddAtan dd_real._nan) = true ∧
     isNaNopt (ddSinh dd_real._nan) = true ∧
     isNaNopt (ddCosh dd_real._nan) = true ∧
     isNaNopt (ddTanh dd_real._nan) = true ∧
     isNaNopt (ddAsinh dd_real._nan) = true ∧
     isNaNopt (ddAcosh dd_real._nan) = true ∧
     isNaNopt (ddAtanh dd_real._nan) = true ∧
     isNaNopt2 (ddSincos dd_real._nan) = true ∧
     isNaNopt2 (ddSincosh dd_real._nan) = true) := by
  refine ⟨?_, ?_, ?_, nroot_nan, ?_, ?_, ?_, ?_⟩
  · intro b
    refine ⟨by simp, by simp, by simp, by simp, by simp, by simp, by simp, by simp,
      by rw [ddFmod_nan_left]; rfl, by rw [ddFmod_nan_right]; rfl,
      by rw [ddDrem_nan_left]; rfl, by rw [ddDrem_nan_right]; rfl,
      (ddDivrem_nan_left b).1, by rw [(ddDivrem_nan_left b).2]; rfl,
      (ddDivrem_nan_right b).1, by rw [(ddDivrem_nan_right b).2]; rfl,
      by rw [ddPow_nan_left]; rfl, by rw [ddPow_nan_right]; rfl⟩
  · intro d
    refine ⟨by simp, by simp [dAddDD], by simp, by rw [dSubDD_nan_right]; rfl,
      by simp, by simp [dMulDD], by simp, ?_, by rw [mul_pwr2_nan]; rfl⟩
    unfold dDivDD
    rw [ddDiv_nan_right]
    rfl
  · intro n hn
    rw [npwr_nan n hn]
    rfl
  · intro n
    rw [ddLdexp_nan]
    rfl
  · intro x hx
    rw [ddAtan2_nan_y x hx]
    rfl
  · intro y hy
    rw [ddAtan2_nan_x y hy]
    rfl
  · repeat' apply And.intro
    all_goals with_unfolding_all decide

/-- Witness for C5 (amended) at concrete inputs. -/
theorem C5_nan_propagation_witness :
    (ddAdd dd_real._nan (dd_real.ofD (.fin 2))).is_nanb = true ∧
    (npwr dd_real._nan 3).is_nanb = true ∧
    isNaNopt (ddAtan2 dd_real._nan (dd_real.ofD (.fin 1))) = true ∧
    isNaNopt (ddAtan2 (dd_real.ofD (.fin 1)) dd_real._nan) = true :=
  ⟨(C5_nan_propagation.1 (dd_real.ofD (.fin 2))).1,
   C5_nan_propagation.2.2.1 3 (by omega),
   C5_nan_propagation.2.2.2.2.2.1 (dd_real.ofD (.fin 1)) (by decide),
   C5_nan_propagation.2.2.2.2.2.2.1 (dd_real.ofD (.fin 1)) (by decide)⟩


/-- C6: exp's special values — `a <= -709` (double-double comparison with
the double literal) returns 0, `a >= 709` returns the canonical +infinity
expansion, the zero expansion returns exactly 1, and the unit expansion
returns the cached `_e` constant bit-for-bit. -/
theorem C6_exp_special_values :
    (∀ a : dd_real, ddLeD a (.fin (-709)) = true → ddExp a = some (dd_real.ofD (.fin 0))) ∧
    (∀ a : dd_real, ddGeD a (.fin 709) = true → ddExp a = some dd_real._inf) ∧
    ddExp (dd_real.ofD (.fin 0)) = some (dd_real.ofD (.fin 1)) ∧
    ddExp (dd_real.ofD (.fin 1)) = some dd_real._e := by
  refine ⟨?_, ?_, by decide, by decide⟩
  · intro a h
    unfold ddExp
    rw [ddLeD_le a (-709) h]
    rfl
  · intro a h
    have h2 : Fp.le (.fin 709) a.x0 = true := ddGeD_le a 709 h
    have h1 : Fp.le a.x0 (.fin (-709)) = false := by
      rcases Fp.fin_le_elim 709 a.x0 h2 with ⟨q, hq, hle⟩ | hq <;> rw [hq]
      · simp only [Fp.le, Fp.lt, Fp.feq, Bool.or_eq_false_iff, decide_eq_false_iff_not]
        constructor
        · intro hc
          linarith
        · intro hc
          linarith
      · rfl
    unfold ddExp
    rw [h1, h2]
    rfl

/-- Witness for C6 at the concrete inputs `-710` and `710`. -/
theorem C6_exp_special_values_witness :
    ddExp (dd_real.ofD (.fin (-710))) = some (dd_real.ofD (.fin 0)) ∧
    ddExp (dd_real.ofD (.fin 710)) = some dd_real._inf :=
  ⟨C6_exp_special_values.1 _ (by decide),
   C6_exp_special_values.2.1 _ (by decide)⟩


/-- C7 counterexample: at d = 2.5 the code returns `floor(2.5 + 0.5) = 3`,
whereas round-half-to-even gives 2 — `nint` breaks ties upward, not to
even. -/
theorem C7_counterexample :
    qd.nint (.fin (mkRat 5 2)) = .fin 3 ∧ qd.nint (.fin (mkRat 5 2)) ≠ .fin 2 := by
  with_unfolding_all decide

/-- C7 (amended): the single-float `nint(d)` returns `floor(d + 1/2)` —
the nearest integer with ties rounded upward (toward plus infinity), as
witnessed by the nearest-integer property — and `aint(d)` truncates
toward zero (`sign(d) * floor(|d|)`); in the exact-arithmetic model of a
double. -/
theorem C7_nint_aint (q : ℚ) :
    qd.nint (.fin q) = .fin ((⌊q + 1/2⌋ : ℤ) : ℚ) ∧
    (∀ n : ℤ, |q - ((⌊q + 1/2⌋ : ℤ) : ℚ)| ≤ |q - (n : ℚ)|) ∧
    qd.aint (.fin q) = .fin ((q.num.sign * ⌊|q|⌋ : ℤ) : ℚ) := by
  have hhalf : (mkRat 1 2 : ℚ) = 1/2 := by
    rw [Rat.mkRat_eq_div]
    norm_num
  refine ⟨?_, ?_, ?_⟩
  · unfold qd.nint
    simp only [Fp.floor, Fp.add, hhalf]
    split
    · next h =>
      simp only [Fp.feq, decide_eq_true_eq] at h
      rw [show q = ((⌊q⌋ : ℤ) : ℚ) from h]
      congr 1
      rw [show ((⌊q⌋ : ℤ) : ℚ) + 1/2 = 1/2 + ((⌊q⌋ : ℤ) : ℚ) from by ring]
      rw [Int.floor_add_int]
      norm_num
    · rfl
  · intro n
    have h1 : ((⌊q + 1/2⌋ : ℤ) : ℚ) ≤ q + 1/2 := Int.floor_le _
    have h2 : q + 1/2 - 1 < ((⌊q + 1/2⌋ : ℤ) : ℚ) := Int.sub_one_lt_floor _
    have hm : |q - ((⌊q + 1/2⌋ : ℤ) : ℚ)| ≤ 1/2 := by
      rw [abs_le]
      constructor <;> linarith
    rcases lt_trichotomy n ⌊q + 1/2⌋ with hlt | heq | hgt
    · have : (n : ℚ) ≤ ((⌊q + 1/2⌋ : ℤ) : ℚ) - 1 := by
        have : n ≤ ⌊q + 1/2⌋ - 1 := by omega
        calc (n : ℚ) ≤ ((⌊q + 1/2⌋ - 1 : ℤ) : ℚ) := by exact_mod_cast this
          _ = ((⌊q + 1/2⌋ : ℤ) : ℚ) - 1 := by push_cast; ring
      calc |q - ((⌊q + 1/2⌋ : ℤ) : ℚ)| ≤ 1/2 := hm
        _ ≤ q - (n : ℚ) := by linarith
        _ ≤ |q - (n : ℚ)| := le_abs_self _
    · rw [heq]
    · have : ((⌊q + 1/2⌋ : ℤ) : ℚ) + 1 ≤ (n : ℚ) := by
        have : ⌊q + 1/2⌋ + 1 ≤ n := by omega
        calc ((⌊q + 1/2⌋ : ℤ) : ℚ) + 1 = ((⌊q + 1/2⌋ + 1 : ℤ) : ℚ) := by push_cast; ring
          _ ≤ (n : ℚ) := by exact_mod_cast this
      calc |q - ((⌊q + 1/2⌋ : ℤ) : ℚ)| ≤ 1/2 := hm
        _ ≤ (n : ℚ) - q := by linarith
        _ = -(q - (n : ℚ)) := by ring
        _ ≤ |q - (n : ℚ)| := neg_le_abs _
  · unfold qd.aint
    simp only [Fp.le, Fp.lt, Fp.feq, Fp.floor, Fp.ceil]
    rcases lt_trichotomy 0 q with hq | hq | hq
    · rw [if_pos (by simp [le_of_lt hq, hq])]
      congr 1
      have hs : q.num.sign = 1 := Int.sign_eq_one_of_pos (Rat.num_pos.mpr hq)
      rw [hs, one_mul, abs_of_pos hq]
    · rw [if_pos (by simp [hq])]
      rw [← hq]
      norm_num
    · rw [if_neg (by
        simp only [Bool.or_eq_true, decide_eq_true_eq, not_or]
        exact ⟨by linarith, fun h => absurd hq (by rw [← h]; exact lt_irrefl 0)⟩)]
      congr 1
      have hs : q.num.sign = -1 := Int.sign_eq_neg_one_of_neg (Rat.num_neg.mpr hq)
      have hceil : ⌈q⌉ = -1 * ⌊-q⌋ := by
        rw [Int.floor_neg]
        ring
      rw [hs, abs_of_neg hq, hceil]


/-- C8: the axis and diagonal special cases of `atan2` return exact
copies of the stored constants: x = 0 gives `±_pi2` by the sign of y,
y = 0 gives 0 or `_pi`, x = y gives `_pi4` / `-_3pi4`, x = -y gives
`_3pi4` / `-_pi4`, and in particular `atan2(1,1)` is the `_pi4` constant
itself. -/
theorem C8_atan2_special_cases :
    (∀ y x : dd_real, x.is_zero = true → y.is_positive = true →
      ddAtan2 y x = some dd_real._pi2) ∧
    (∀ y x : dd_real, x.is_zero = true → y.is_negative = true →
      ddAtan2 y x = some (ddNeg dd_real._pi2)) ∧
    (∀ y x : dd_real, x.is_zero = false → y.is_zero = true → x.is_positive = true →
      ddAtan2 y x = some (dd_real.ofD (.fin 0))) ∧
    (∀ y x : dd_real, x.is_zero = false → y.is_zero = true → x.is_negative = true →
      ddAtan2 y x = some dd_real._pi) ∧
    (∀ y x : dd_real, ddEq x y = true → y.is_positive = true →
      ddAtan2 y x = some dd_real._pi4) ∧
    (∀ y x : dd_real, ddEq x y = true → y.is_negative = true →
      ddAtan2 y x = some (ddNeg dd_real._3pi4)) ∧
    (∀ y x : dd_real, ddEq x (ddNeg y) = true → y.is_positive = true →
      ddAtan2 y x = some dd_real._3pi4) ∧
    (∀ y x : dd_real, ddEq x (ddNeg y) = true → y.is_negative = true →
      ddAtan2 y x = some (ddNeg dd_real._pi4)) ∧
    ddAtan2 (dd_real.ofD (.fin 1)) (dd_real.ofD (.fin 1)) = some dd_real._pi4 := by
  refine ⟨?_, ?_, ?_, ?_, ?_, ?_, ?_, ?_, by decide⟩
  · intro y x hx hy
    unfold ddAtan2
    rw [hx, is_positive_not_zero y hy, hy]
    rfl
  · intro y x hx hy
    unfold ddAtan2
    rw [hx, is_negative_not_zero y hy, is_negative_not_positive y hy]
    rfl
  · intro y x hx hy hxp
    unfold ddAtan2
    rw [hx, hy, hxp]
    rfl
  · intro y x hx hy hxn
    unfold ddAtan2
    rw [hx, hy, is_negative_not_positive x hxn]
    rfl
  · intro y x heq hy
    have hyz : y.is_zero = false := is_positive_not_zero y hy
    have hxz : x.is_zero = false := by rw [ddEq_is_zero_eq x y heq, hyz]
    unfold ddAtan2
    rw [hxz, hyz, heq, hy]
    rfl
  · intro y x heq hy
    have hyz : y.is_zero = false := is_negative_not_zero y hy
    have hxz : x.is_zero = false := by rw [ddEq_is_zero_eq x y heq, hyz]
    unfold ddAtan2
    rw [hxz, hyz, heq, is_negative_not_positive y hy]
    rfl
  · intro y x heq hy
    have hyz : y.is_zero = false := is_positive_not_zero y hy
    obtain ⟨hne, hxz⟩ := ddEq_neg_facts y x heq hyz
    unfold ddAtan2
    rw [hxz, hyz, hne, heq, hy]
    rfl
  · intro y x heq hy
    have hyz : y.is_zero = false := is_negative_not_zero y hy
    obtain ⟨hne, hxz⟩ := ddEq_neg_facts y x heq hyz
    unfold ddAtan2
    rw [hxz, hyz, hne, heq, is_negative_not_positive y hy]
    rfl

/-- Witness for C8 at concrete axis/diagonal inputs. -/
theorem C8_atan2_special_cases_witness :
    ddAtan2 (dd_real.ofD (.fin 2)) (dd_real.ofD (.fin 0)) = some dd_real._pi2 ∧
    ddAtan2 (dd_real.ofD (.fin (-2))) (dd_real.ofD (.fin 0)) = some (ddNeg dd_real._pi2) ∧
    ddAtan2 (dd_real.ofD (.fin 0)) (dd_real.ofD (.fin 2)) = some (dd_real.ofD (.fin 0)) ∧
    ddAtan2 (dd_real.ofD (.fin 0)) (dd_real.ofD (.fin (-2))) = some dd_real._pi ∧
    ddAtan2 (dd_real.ofD (.fin 3)) (dd_real.ofD (.fin 3)) = some dd_real._pi4 ∧
    ddAtan2 (dd_real.ofD (.fin (-3))) (dd_real.ofD (.fin (-3))) = some (ddNeg dd_real._3pi4) ∧
    ddAtan2 (dd_real.ofD (.fin 3)) (dd_real.ofD (.fin (-3))) = some dd_real._3pi4 ∧
    ddAtan2 (dd_real.ofD (.fin (-3))) (dd_real.ofD (.fin 3)) = some (ddNeg dd_real._pi4) :=
  ⟨C8_atan2_special_cases.1 _ _ (by decide) (by decide),
   C8_atan2_special_cases.2.1 _ _ (by decide) (by decide),
   C8_atan2_special_cases.2.2.1 _ _ (by decide) (by decide) (by decide),
   C8_atan2_special_cases.2.2.2.1 _ _ (by decide) (by decide) (by decide),
   C8_atan2_special_cases.2.2.2.2.1 _ _ (by decide) (by decide),
   C8_atan2_special_cases.2.2.2.2.2.1 _ _ (by decide) (by decide),
   C8_atan2_special_cases.2.2.2.2.2.2.1 _ _ (by decide) (by decide),
   C8_atan2_special_cases.2.2.2.2.2.2.2.1 _ _ (by decide) (by decide)⟩


/-- C9: every Taylor-series loop of the kernel terminates — the exp term
loop (counter-capped at 5 iterations) for all inputs, the
sin_taylor/cos_taylor loops (capped by the 15-entry table bound) for all
inputs, and sinh's small-argument loop, whose only exit condition is
`|t| <= thresh`, for every normal-form input with `|a| <= 0.05`
(`isSome` means the structurally-bounded embedding did not exhaust its
fuel, i.e. the loop exits). -/
theorem C9_taylor_loops_terminate :
    (∀ r s p t : dd_real, (expLoop r 5 0 s p t).isSome = true) ∧
    (∀ a : dd_real, (sin_taylor a).isSome = true) ∧
    (∀ a : dd_real, (cos_taylor a).isSome = true) ∧
    (∀ a : dd_real, (ddExp a).isSome = true) ∧
    (∀ q0 q1 : ℚ, |q0| ≤ 1 / 20 → |q1| ≤ |q0| / 4503599627370496 →
      (ddSinh ⟨.fin q0, .fin q1⟩).isSome = true) :=
  ⟨fun r s p t => expLoop_isSome 5 0 (by omega) (by omega) r s p t,
   sin_taylor_isSome, cos_taylor_isSome, ddExp_isSome, ddSinh_isSome_small⟩

/-- Witness for C9: sinh's loop exits on the concrete normal-form input
`(1/100, 0)`, and the other loops on concrete inputs. -/
theorem C9_taylor_loops_terminate_witness :
    (ddSinh ⟨.fin (1/100), .fin 0⟩).isSome = true ∧
    (sin_taylor (dd_real.ofD (.fin (1/100)))).isSome = true ∧
    (ddExp (dd_real.ofD (.fin 1))).isSome = true :=
  ⟨C9_taylor_loops_terminate.2.2.2.2 (1/100) 0
      (by rw [abs_of_nonneg (by norm_num)]; norm_num)
      (by rw [abs_of_nonneg (le_refl 0)]; positivity),
   C9_taylor_loops_terminate.2.1 _,
   C9_taylor_loops_terminate.2.2.2.1 _⟩

/-- C10 counterexample: a NaN in a trailing limb does not force the
tri-state comparison to 0 — with a = (0, NaN) and b = (1, 0) the
lexicographic `operator<` orders by the distinct leading limbs and
`c_dd_comp` returns -1. -/
theorem C10_counterexample :
    c_dd_comp ⟨.fin 0, .nan⟩ ⟨.fin 1, .fin 0⟩ = -1 := by
  with_unfolding_all decide

/-- C10 (amended): `c_dd_comp` returns 0 — reporting equality — whenever
the leading limb of either argument is NaN; in particular on the
canonical NaN expansion.  (A NaN confined to a trailing limb does not
prevent ordering by distinct leading limbs.) -/
theorem C10_comp_nan_zero (a b : dd_real)
    (h : a.x0.isNaN = true ∨ b.x0.isNaN = true) : c_dd_comp a b = 0 := by
  have ha : a.x0 = .nan ∨ b.x0 = .nan := by
    rcases h with h | h
    · left
      cases hx : a.x0 <;> rw [hx] at h <;> simp [Fp.isNaN] at h ⊢
    · right
      cases hx : b.x0 <;> rw [hx] at h <;> simp [Fp.isNaN] at h ⊢
  unfold c_dd_comp ddLt ddGt
  rcases ha with ha | ha <;> rw [ha] <;> simp

/-- Witness for C10 on the canonical NaN expansion. -/
theorem C10_comp_nan_zero_witness :
    c_dd_comp dd_real._nan (dd_real.ofD (.fin 1)) = 0 :=
  C10_comp_nan_zero dd_real._nan (dd_real.ofD (.fin 1)) (Or.inl rfl)


end MP
